import Mathlib

/-!
# Verification of the vimib toolchain (lexer, recursive-descent front end,
# bytecode generator and stack virtual machine)

This file is a shallow embedding, in Lean 4, of the parts of the vimib
repository that the verified properties talk about:

* `src/libparser/src/lexer.rs`      — tokenizer (`Cursor::next_token`,
  `Tokenizer::next`);
* `src/libparser/src/parser/…`      — recursive-descent AST construction;
* `src/libcodegen/src/opcode.rs`    — `OpcodeGenerator` lowering the AST to
  bytecode;
* `src/libvm/src/{vm,module,function,consts,vm_type}.rs` — the byte-coded
  virtual machine.

Conventions used throughout the embedding:

* A Rust `u8` byte is a `Nat` (values kept `< 256`; every place where the
  source performs an `as u8` cast is modelled with an explicit `% 256`).
* A Rust `Vec<u8>` is a `List Nat` in index order: list head = index 0,
  `Vec::push` appends at the end of the list, `Vec::pop` removes the last
  element.
* A Rust `i32` is an `Int` in `[-2^31, 2^31)`, stored on the VM stack as four
  little-endian two's-complement bytes exactly as `Vm::push_i32`/`pop_i32` do.
* Code that panics (stack underflow, out-of-bounds index, unknown opcode,
  `unimplemented!()`, failed `unwrap`) is modelled by `Option.none`.
* The lexer's three skip loops (line comment, block comment, string literal)
  make no progress when the input is exhausted (`peek(0)` keeps answering
  `'\0'` and `Chars::next` keeps answering `None`), i.e. the Rust loop runs
  forever.  The embedding returns `none` exactly in these stuck situations,
  so `none` at the lexer level means non-termination of the source loop.
* Recursion that is not structural in the source (the VM dispatch loop, the
  mutually recursive parser, nested code generation) is given an explicit
  fuel argument so that every definition is executable and kernel-reducible;
  fuel exhaustion also yields `none`.
* `f32` payloads (IEEE-754 transmutes and float opcodes) are outside the
  embedding; the corresponding arms are modelled as `none` and no verified
  property touches them.
* `HashMap`s are modelled as association lists; the only iteration over a
  map (`Module::get_main`) happens in the verified scenarios on single-entry
  maps where the iteration order is irrelevant.
-/

/-! ## Spans (src/libparser/src/span.rs) -/

/-- `Span { pos: (usize, usize), is_dummy: bool }`: a byte range of source. -/
structure Span where
  pos : Nat × Nat
  is_dummy : Bool
deriving DecidableEq, Repr

/-- `Span::new(start, end)`. -/
def Span.new (start stop : Nat) : Span := ⟨(start, stop), false⟩

/-- `Span::dummy()`. -/
def Span.dummy : Span := ⟨(0, 0), true⟩

/-! ## Token kinds (src/libparser/src/lexer.rs) -/

/-- `lexer::LiteralKind`. -/
inductive LexLiteralKind where
  | Float | Int | String
deriving DecidableEq, Repr

/-- `lexer::TokenKind` (exhaustive list from the source). -/
inductive TokenKind where
  | Comment | Whitespace
  | Identifier
  | Literal (kind : LexLiteralKind)
  | Let | Fn | If | Else | Break | Loop | Return
  | I32 | F32
  | OpenParen | CloseParen | OpenBracket | CloseBracket | OpenBrace | CloseBrace
  | Dot | Star | Slash | Plus | Minus | Percent | Caret | And | Not | Or
  | Comma | Colon | Question | Equal | Lt | Gt
  | EqEqual | LtEqual | GtEqual | AndAnd | OrOr | NotEqual | Arrow
  | Semi | Eof | Unknown
deriving DecidableEq, Repr

/-- `fn keyword(text: &str) -> Option<TokenKind>`. -/
def keyword (text : String) : Option TokenKind :=
  if text = "let" then some .Let
  else if text = "fn" then some .Fn
  else if text = "if" then some .If
  else if text = "else" then some .Else
  else if text = "break" then some .Break
  else if text = "loop" then some .Loop
  else if text = "return" then some .Return
  else if text = "i32" then some .I32
  else if text = "f32" then some .F32
  else none

/-- `fn is_whitespace(c: char) -> bool` (the exact character set of the
source, including NEL, the bidi marks and the Unicode separators). -/
def is_whitespace (c : Char) : Bool :=
  c = '\u0009' ∨ c = '\u000A' ∨ c = '\u000B' ∨ c = '\u000C' ∨ c = '\u000D' ∨
  c = '\u0020' ∨ c = '\u0085' ∨ c = '\u200E' ∨ c = '\u200F' ∨
  c = ' ' ∨ c = ' '

/-- `fn is_ident_first(c: char) -> bool`. -/
def is_ident_first (c : Char) : Bool :=
  ('A' ≤ c ∧ c ≤ 'Z') ∨ ('a' ≤ c ∧ c ≤ 'z') ∨ c = '_'

/-- `fn is_ident(c: char) -> bool`. -/
def is_ident (c : Char) : Bool :=
  is_ident_first c ∨ ('0' ≤ c ∧ c ≤ '9')

/-- ASCII digit test used by the number-literal arm (`'0'..='9'`). -/
def is_digit (c : Char) : Bool := '0' ≤ c ∧ c ≤ '9'

/-- Byte length of a character sequence (Rust `str::len` counts UTF-8
bytes; `len_consumed` is a difference of such byte lengths). -/
def byte_len (cs : List Char) : Nat := (cs.map Char.utf8Size).sum

/-! ### The `Cursor::next_token` skip loops.

Each helper consumes characters from the front of the remaining input and
returns the remaining suffix.  `none` marks the situations where the Rust
loop can make no progress (end of input reached with no exit condition):
there `peek(0)` returns `'\0'`, `Chars::next` returns `None`, and the
`loop` spins forever. -/

/-- Whitespace run: `while is_whitespace(self.peek(0)) { self.next(); }`
(always terminates: `'\0'` is not whitespace). -/
def skip_whitespace : List Char → List Char
  | [] => []
  | c :: cs => if is_whitespace c then skip_whitespace cs else c :: cs

/-- Line comment body: loop peeking for `'\n'` (which is left unconsumed);
at end of input the loop makes no progress — `none`. -/
def skip_line_comment : List Char → Option (List Char)
  | [] => none
  | c :: cs => if c = '\n' then some (c :: cs) else skip_line_comment cs

/-- Block comment body: breaks on `"*/"` (then consumes both); on a `'*'`
not followed by `'/'` consumes the `'*'`; at end of input — `none`. -/
def skip_block_comment : List Char → Option (List Char)
  | [] => none
  | c :: cs =>
    if c = '*' ∧ cs.head? = some '/' then some cs.tail
    else skip_block_comment cs

/-- String literal body: `while self.peek(0) != '"' { self.next(); }` then
one more `next()` for the closing quote; at end of input — `none`. -/
def skip_string : List Char → Option (List Char)
  | [] => none
  | c :: cs => if c = '"' then some cs else skip_string cs

/-- Number literal scan after the first digit.  Implements the source loop:
a `'.'` is consumed (and flags `Float`) unless the character after it is an
identifier start; digits are consumed; anything else breaks.  Returns the
`has_dot` flag and the remaining input. -/
def skip_number : List Char → Bool → Bool × List Char
  | [], has_dot => (has_dot, [])
  | c :: cs, has_dot =>
    if c = '.' then
      match cs.head? with
      | some c2 => if is_ident_first c2 then (has_dot, c :: cs) else skip_number cs true
      | none => skip_number cs true
    else if is_digit c then skip_number cs has_dot
    else (has_dot, c :: cs)

/-- Identifier scan: accumulates the identifier characters into `buf`
(first character already consumed by the caller) and returns the remaining
input. -/
def skip_ident (buf : List Char) : List Char → List Char × List Char
  | [] => (buf, [])
  | c :: cs => if is_ident c then skip_ident (buf ++ [c]) cs else (buf, c :: cs)

/-- `Cursor::next_token`, as a function from the remaining input to the
token kind and the input left over after the token.  `none` models the
non-terminating skip loops (and the `unwrap` panic on empty input, which
`Tokenizer::next` never triggers). -/
def next_token : List Char → Option (TokenKind × List Char)
  | [] => none
  | c :: cs =>
    if is_whitespace c then some (.Whitespace, skip_whitespace cs)
    else if c = '/' then
      match cs with
      | '/' :: cs2 => (skip_line_comment cs2).map ((.Comment, ·))
      | '*' :: cs2 => (skip_block_comment cs2).map ((.Comment, ·))
      | _ => some (.Slash, cs)
    else if c = '"' then (skip_string cs).map ((.Literal .String, ·))
    else if is_digit c then
      let r := skip_number cs false
      some (.Literal (if r.1 then .Float else .Int), r.2)
    else if is_ident_first c then
      let r := skip_ident [c] cs
      some ((keyword (String.mk r.1)).getD .Identifier, r.2)
    else if c = ';' then some (.Semi, cs)
    else if c = '(' then some (.OpenParen, cs)
    else if c = ')' then some (.CloseParen, cs)
    else if c = '{' then some (.OpenBrace, cs)
    else if c = '}' then some (.CloseBrace, cs)
    else if c = '[' then some (.OpenBracket, cs)
    else if c = ']' then some (.CloseBracket, cs)
    else if c = ',' then some (.Comma, cs)
    else if c = '.' then some (.Dot, cs)
    else if c = '?' then some (.Question, cs)
    else if c = ':' then some (.Colon, cs)
    else if c = '+' then some (.Plus, cs)
    else if c = '*' then some (.Star, cs)
    else if c = '^' then some (.Caret, cs)
    else if c = '%' then some (.Percent, cs)
    else if c = '!' then
      match cs with
      | '=' :: cs2 => some (.NotEqual, cs2)
      | _ => some (.Not, cs)
    else if c = '=' then
      match cs with
      | '=' :: cs2 => some (.EqEqual, cs2)
      | _ => some (.Equal, cs)
    else if c = '&' then
      match cs with
      | '&' :: cs2 => some (.AndAnd, cs2)
      | _ => some (.And, cs)
    else if c = '|' then
      match cs with
      | '|' :: cs2 => some (.OrOr, cs2)
      | _ => some (.Or, cs)
    else if c = '<' then
      match cs with
      | '=' :: cs2 => some (.LtEqual, cs2)
      | _ => some (.Lt, cs)
    else if c = '>' then
      match cs with
      | '=' :: cs2 => some (.GtEqual, cs2)
      | _ => some (.Gt, cs)
    else if c = '-' then
      match cs with
      | '>' :: cs2 => some (.Arrow, cs2)
      | _ => some (.Minus, cs)
    else if c = '\u0000' then some (.Eof, cs)
    else some (.Unknown, cs)

/-- The raw token stream of `Tokenizer` (pre-filter): every produced token
paired with `len_consumed` (in bytes), whitespace and comments included.
Stops when the input is empty; `fuel` bounds the number of tokens (each
token consumes at least one character, so `input.length + 1` is enough). -/
def lex_raw : Nat → List Char → Option (List (TokenKind × Nat))
  | 0, _ => none
  | _ + 1, [] => some []
  | fuel + 1, c :: cs => do
    let (kind, rest) ← next_token (c :: cs)
    let rest' ← lex_raw fuel rest
    some ((kind, byte_len (c :: cs) - byte_len rest) :: rest')

/-- `Token { kind, span }`. -/
structure Token where
  kind : TokenKind
  span : Span
deriving DecidableEq, Repr

/-- The `eof()` token handed out when the stream is exhausted. -/
def eof_token : Token := ⟨.Eof, Span.dummy⟩

/-- `Tokenizer` as a whole: the raw stream with byte positions folded in,
whitespace/comment tokens filtered out (`Tokenizer::next` skips them), each
survivor given the span `(pos - len, pos)`. -/
def spanify : Nat → List (TokenKind × Nat) → List Token
  | _, [] => []
  | pos, (kind, len) :: rest =>
    if kind = .Whitespace ∨ kind = .Comment then spanify (pos + len) rest
    else ⟨kind, Span.new pos (pos + len)⟩ :: spanify (pos + len) rest

/-- Tokenize a whole input: `none` when the lexer does not terminate. -/
def tokenize (cs : List Char) : Option (List Token) :=
  (lex_raw (cs.length + 1) cs).map (spanify 0)

/-! ## AST (src/libparser/src/ast.rs) -/

/-- `ast::LiteralKind`. -/
inductive LiteralKind where
  | String | Int | Float
deriving DecidableEq, Repr

/-- `LiteralKind::from(lexer::LiteralKind)`. -/
def literal_kind_from : LexLiteralKind → LiteralKind
  | .Float => .Float
  | .Int => .Int
  | .String => .String

/-- `ast::Op`. -/
inductive Op where
  | Star | Slash | Plus | Minus | Mod
  | Eq | NotEq | LtEq | GtEq | Lt | Gt | Not
deriving DecidableEq, Repr

/-- `Op::from(TokenKind)`.  The Rust impl panics on a non-operator kind;
every call site guards with `until(op kinds)`, so the default arm is
unreachable (modelled with an arbitrary operator). -/
def op_from : TokenKind → Op
  | .Star => .Star
  | .Slash => .Slash
  | .Plus => .Plus
  | .Minus => .Minus
  | .Percent => .Mod
  | .EqEqual => .Eq
  | .NotEqual => .NotEq
  | .LtEqual => .LtEq
  | .GtEqual => .GtEq
  | .Lt => .Lt
  | .Gt => .Gt
  | .Not => .Not
  | _ => .Not

/-- `ast::Expression`.  `ast.rs` declares `Binary`/`Unary` with a trailing
`Span` used only for diagnostics; the expression parser in
`parser/expression.rs` builds them without one, so the embedding fills in
`Span.dummy` at the construction sites. -/
inductive Expression where
  | Literal (val : Span) (kind : LiteralKind)
  | Binary (lhs : Expression) (op : Op) (rhs : Expression) (span : Span)
  | Unary (op : Op) (operand : Expression) (span : Span)
  | Ident (val : Span)
  | FunctionCall (name : Span) (args : List Expression)
  | Dummy
deriving Repr

/-- `ast::Type` (source-level types). -/
inductive AstType where
  | Str | Int | Float | Void
deriving DecidableEq, Repr

/-- `ast::Ident` (parameter declarations). -/
inductive PIdent where
  | Typed (span : Span) (ty : AstType)
  | Untyped (span : Span)
deriving Repr

mutual
/-- `ast::Statement`. -/
inductive Statement where
  | Assign (name : Span) (e : Expression)
  | FnDecl (name : Span) (return_type : AstType) (args : List PIdent) (block : Block)
  | Return (e : Expression) (span : Span)
  | Mutate (name : Span) (e : Expression)
  | If (cond : Expression) (body : Block) (next : Option Statement)
  | Else (body : Block)
  | Loop (body : Block)
  | Break
  | Expression (e : Expression)
  | Dummy
deriving Repr

/-- `ast::Block`. -/
inductive Block where
  | mk (body : List Statement)
deriving Repr
end

/-- The statement list of a block. -/
def Block.body : Block → List Statement
  | .mk b => b

/-! ## Lexer-stream operations used by the parser
(src/libparser/src/lexer.rs, `impl Lexer`).

The parser owns a `Lexer`; the embedding pre-tokenizes and threads the
remaining token list.  `next` on an exhausted stream yields `eof_token`
without consuming, exactly like `Lexer::next`. -/

/-- `Lexer::next`. -/
def lnext : List Token → Token × List Token
  | [] => (eof_token, [])
  | t :: ts => (t, ts)

/-- `Lexer::peek(n)`. -/
def lpeek (n : Nat) (ts : List Token) : Token :=
  (ts.drop n).headD eof_token

/-- `Lexer::until(kinds)`: consume and return the next token iff its kind
is listed. -/
def luntil (kinds : List TokenKind) (ts : List Token) : Option (Token × List Token) :=
  let peeked := lpeek 0 ts
  if kinds.contains peeked.kind then some (lnext ts) else none

/-- `Lexer::expect(kind, msg)`: like `until([kind])`, reporting a
diagnostic (a side effect not modelled) on mismatch. -/
def lexpect (kind : TokenKind) (ts : List Token) : Option (Token × List Token) :=
  let peeked := lpeek 0 ts
  if peeked.kind = kind then some (lnext ts) else none

/-! ## Expression parsing (src/libparser/src/parser/expression.rs)

The source levels are mutually recursive through `primary` (parenthesised
expressions, call arguments) and through `multiplication` itself.  Each
level below takes the recursive entry points it needs as function
arguments (`pe` = `parse_expression`, `pm` = `multiplication`), and every
`while`/`loop` gets a fuel argument; `parse_expression` ties the knot,
decrementing the fuel once per nesting level. -/

/-- `Parser::primary`. -/
def primary (pe : List Token → Expression × List Token)
    (pfc : List Token → Expression × List Token) (ts : List Token) :
    Expression × List Token :=
  let next := lpeek 0 ts
  match next.kind with
  | .Literal kind => ((.Literal next.span (literal_kind_from kind)), (lnext ts).2)
  | .Identifier =>
    match (lpeek 1 ts).kind with
    | .OpenParen => pfc ts
    | _ => (.Ident next.span, (lnext ts).2)
  | .OpenParen =>
    let ts1 := (lnext ts).2
    let (expr, ts2) := pe ts1
    match lexpect .CloseParen ts2 with
    | some (_, ts3) => (expr, ts3)
    | none => (expr, ts2)
  | _ => (.Dummy, (lnext ts).2)

/-- The argument loop of `Parser::parse_function_call` (parse an
expression, then branch on `)` / `,` / error-and-continue). -/
def call_args_loop (pe : List Token → Expression × List Token) :
    Nat → List Token → List Expression → List Expression × List Token
  | 0, ts, args => (args, ts)
  | fuel + 1, ts, args =>
    let (expression, ts1) := pe ts
    let args := args ++ [expression]
    let (next, ts2) := lnext ts1
    match next.kind with
    | .CloseParen => (args, ts2)
    | .Comma => call_args_loop pe fuel ts2 args
    | _ => call_args_loop pe fuel ts2 args

/-- `Parser::parse_function_call`. -/
def parse_function_call (pe : List Token → Expression × List Token)
    (fuel : Nat) (ts : List Token) : Expression × List Token :=
  let (next, ts1) := lnext ts
  let (paren, ts2) := lnext ts1
  if paren.kind = .OpenParen then
    if (lpeek 0 ts2).kind = .CloseParen then
      (.FunctionCall next.span [], (lnext ts2).2)
    else
      let (args, ts3) := call_args_loop pe fuel ts2 []
      (.FunctionCall next.span args, ts3)
  else
    (.Dummy, ts2)

/-- `Parser::unary`: NOTE the source tests for `Star`/`Slash` (not
`Minus`/`Not`) before falling through to `primary`. -/
def parse_unary (pe pm pfc : List Token → Expression × List Token)
    (ts : List Token) : Expression × List Token :=
  match luntil [.Star, .Slash] ts with
  | some (op, ts1) =>
    let (rhs, ts2) := pm ts1
    (.Unary (op_from op.kind) rhs Span.dummy, ts2)
  | none => primary pe pfc ts

/-- The `while let Some(op) = until(ops)` loop shared by the four binary
levels: `lower` parses the right-hand side. -/
def bin_loop (lower : List Token → Expression × List Token)
    (ops : List TokenKind) :
    Nat → Expression → List Token → Expression × List Token
  | 0, expr, ts => (expr, ts)
  | fuel + 1, expr, ts =>
    match luntil ops ts with
    | some (op, ts1) =>
      let (rhs, ts2) := lower ts1
      bin_loop lower ops fuel (.Binary expr (op_from op.kind) rhs Span.dummy) ts2
    | none => (expr, ts)

/-- `Parser::multiplication`: the right-hand side recurses into
`multiplication` itself (making the level right-associative). -/
def multiplication (pe pfc : List Token → Expression × List Token) :
    Nat → List Token → Expression × List Token
  | 0, ts => (.Dummy, ts)
  | fuel + 1, ts =>
    let pm := multiplication pe pfc fuel
    let (expr, ts1) := parse_unary pe pm pfc ts
    bin_loop pm [.Star, .Slash] fuel expr ts1

/-- `Parser::addition` (left-associative: rhs is `multiplication`). -/
def addition (pe pfc : List Token → Expression × List Token)
    (fuel : Nat) (ts : List Token) : Expression × List Token :=
  let (expr, ts1) := multiplication pe pfc fuel ts
  bin_loop (multiplication pe pfc fuel) [.Plus, .Minus] fuel expr ts1

/-- `Parser::comparison` (left-associative: rhs is `addition`). -/
def comparison (pe pfc : List Token → Expression × List Token)
    (fuel : Nat) (ts : List Token) : Expression × List Token :=
  let (expr, ts1) := addition pe pfc fuel ts
  bin_loop (addition pe pfc fuel) [.Lt, .Gt, .LtEqual, .GtEqual] fuel expr ts1

/-- `Parser::equality` (left-associative: rhs is `comparison`). -/
def equality (pe pfc : List Token → Expression × List Token)
    (fuel : Nat) (ts : List Token) : Expression × List Token :=
  let (expr, ts1) := comparison pe pfc fuel ts
  bin_loop (comparison pe pfc fuel) [.EqEqual, .NotEqual] fuel expr ts1

/-- `Parser::parse_expression` (ties the recursive knot; fuel exhaustion
yields `Dummy` without consuming, which never happens for the inputs
considered in the theorems below). -/
def parse_expression : Nat → List Token → Expression × List Token
  | 0, ts => (.Dummy, ts)
  | fuel + 1, ts =>
    equality (parse_expression fuel) (parse_function_call (parse_expression fuel) fuel) fuel ts

/-! ## Statement parsing (src/libparser/src/parser/statement.rs and mod.rs) -/

/-- `Parser::parse_type`. -/
def parse_type (ts : List Token) : AstType × List Token :=
  let next := lpeek 0 ts
  let out : AstType :=
    match next.kind with
    | .I32 => .Int
    | .F32 => .Float
    | _ => .Void
  (out, (lnext ts).2)

/-- The parameter loop of `Parser::parse_function_decl`: `ident : type`
pairs separated by commas.  `.inr ts` covers the paths where the source
returns `Some(Statement::Dummy)` early (missing colon; fuel exhaustion is
also routed there and never happens on the inputs considered). -/
def fn_args_loop : Nat → List Token → List PIdent →
    (List PIdent × List Token) ⊕ List Token
  | 0, ts, _ => .inr ts
  | fuel + 1, ts, args =>
    if (lpeek 0 ts).kind = .Identifier then
      let (ident, ts1) := lnext ts
      match lexpect .Colon ts1 with
      | none => .inr ts1
      | some (_, ts2) =>
        let (arg_type, ts3) := parse_type ts2
        let args := args ++ [PIdent.Typed ident.span arg_type]
        if (lpeek 0 ts3).kind = .Comma then
          fn_args_loop fuel (lnext ts3).2 args
        else .inl (args, ts3)
    else .inl (args, ts)

/-- `Parser::parse_function_decl` (takes `parse_block` as `pb`).  The
result mirrors the source: `some stmt` is always returned, with
`Statement.Dummy` on the error paths. -/
def parse_function_decl (pb : List Token → Block × List Token)
    (fuel : Nat) (ts : List Token) : Option Statement × List Token :=
  let ts0 := (lnext ts).2
  match lexpect .Identifier ts0 with
  | none => (some .Dummy, ts0)
  | some (ident, ts1) =>
    match lexpect .OpenParen ts1 with
    | none => (some .Dummy, ts1)
    | some (_, ts2) =>
      match fn_args_loop fuel ts2 [] with
      | .inr tse => (some .Dummy, tse)
      | .inl (args, ts3) =>
        match lexpect .CloseParen ts3 with
        | none => (some .Dummy, ts3)
        | some (_, ts4) =>
          let (ret_type, ts5) :=
            if (lpeek 0 ts4).kind = .Arrow then parse_type (lnext ts4).2
            else (.Void, ts4)
          match lexpect .OpenBrace ts5 with
          | none => (some .Dummy, ts5)
          | some (_, ts6) =>
            let (block, ts7) := pb ts6
            (some (.FnDecl ident.span ret_type args block), ts7)

/-- `Parser::parse_if_statement` (recursive through `else if`). -/
def parse_if_statement (pb : List Token → Block × List Token)
    (pe : List Token → Expression × List Token) :
    Nat → List Token → Option Statement × List Token
  | 0, ts => (some .Dummy, ts)
  | fuel + 1, ts =>
    let ts0 := (lnext ts).2
    let (expr, ts1) := pe ts0
    match lexpect .OpenBrace ts1 with
    | none => (some .Dummy, ts1)
    | some (_, ts2) =>
      let (block, ts3) := pb ts2
      if (lpeek 0 ts3).kind = .Else then
        let ts4 := (lnext ts3).2
        if (lpeek 0 ts4).kind = .If then
          match parse_if_statement pb pe fuel ts4 with
          | (some inner, ts5) => (some (.If expr block (some inner)), ts5)
          | (none, ts5) => (none, ts5)
        else
          match lexpect .OpenBrace ts4 with
          | none => (some .Dummy, ts4)
          | some (_, ts5) =>
            let (eblock, ts6) := pb ts5
            (some (.If expr block (some (.Else eblock))), ts6)
      else (some (.If expr block none), ts3)

/-- `Parser::parse_statement` (dispatch on the first token). -/
def parse_statement (pb : List Token → Block × List Token)
    (fuel : Nat) (ts : List Token) : Option Statement × List Token :=
  let pe := parse_expression fuel
  let next := lpeek 0 ts
  match next.kind with
  | .Let =>
    let ts0 := (lnext ts).2
    match lexpect .Identifier ts0 with
    | none =>
      let (_, ts2) :=
        match lexpect .Equal ts0 with
        | some (t, r) => (some t, r)
        | none => (none, ts0)
      let (_, ts3) := pe ts2
      (some .Dummy, ts3)
    | some (ident, ts1) =>
      match lexpect .Equal ts1 with
      | none =>
        let (_, ts3) := pe ts1
        (some .Dummy, ts3)
      | some (_, ts2) =>
        let (expr, ts3) := pe ts2
        (some (.Assign ident.span expr), ts3)
  | .Return =>
    let (kw, ts0) := lnext ts
    let (expr, ts1) := pe ts0
    (some (.Return expr kw.span), ts1)
  | .Fn => parse_function_decl pb fuel ts
  | .If => parse_if_statement pb pe fuel ts
  | .Loop =>
    let ts0 := (lnext ts).2
    match lexpect .OpenBrace ts0 with
    | none => (some .Dummy, ts0)
    | some (_, ts1) =>
      let (block, ts2) := pb ts1
      (some (.Loop block), ts2)
  | .Break => (some .Break, (lnext ts).2)
  | .Identifier =>
    if (lpeek 1 ts).kind = .Equal then
      let (var, ts0) := lnext ts
      let ts1 := (lnext ts0).2
      let (expr, ts2) := pe ts1
      (some (.Mutate var.span expr), ts2)
    else (some (.Expression (pe ts).1), (pe ts).2)
  | .Literal _ => (some (.Expression (pe ts).1), (pe ts).2)
  | _ => (none, ts)

/-- The `while let Some(stmt) = parse_statement()` loop of
`Parser::parse_block`. -/
def stmt_loop (pb : List Token → Block × List Token) :
    Nat → List Token → List Statement × List Token
  | 0, ts => ([], ts)
  | fuel + 1, ts =>
    match parse_statement pb fuel ts with
    | (some stmt, ts1) =>
      let (rest, ts2) := stmt_loop pb fuel ts1
      (stmt :: rest, ts2)
    | (none, ts1) => ([], ts1)

/-- `Parser::parse_block`: statements until `parse_statement` declines,
then consume a `CloseBrace`/`Eof` stop token (reporting an error
otherwise). -/
def parse_block : Nat → List Token → Block × List Token
  | 0, ts => (.mk [], ts)
  | fuel + 1, ts =>
    let (body, ts1) := stmt_loop (parse_block fuel) fuel ts
    match (lpeek 0 ts1).kind with
    | .CloseBrace => (.mk body, (lnext ts1).2)
    | .Eof => (.mk body, (lnext ts1).2)
    | _ => (.mk body, ts1)

/-- `Parser::parse`. -/
def parser_parse (fuel : Nat) (ts : List Token) : Block :=
  (parse_block fuel ts).1

/-! ## VM data model (src/libvm/src/{vm_type,function,module}.rs) -/

/-- `vm_type::Type`.  (`vm_type.rs` gives `String` a `usize` payload, but
both `opcode.rs` and `module.rs` use the variant without one; the payload
is never read, so it is dropped here.) -/
inductive VmType where
  | I32 | Void | String | F32
deriving DecidableEq, Repr

/-- `function::Function` (without the `Rc<RefCell<Module>>` back-reference:
the owning module is passed explicitly wherever the source reads it through
the `Rc`). -/
structure VmFunction where
  program : List Nat
  params : List VmType
  return_type : VmType
deriving DecidableEq, Repr

/-- `module::Module`: the flat constant pool and the function table
(`HashMap<usize, Function>` as an association list keyed by constant
index).  Named `VmModule` because Mathlib already uses `Module`. -/
structure VmModule where
  constants : List Nat
  functions : List (Nat × VmFunction)
deriving DecidableEq, Repr

/-- `Module::new_const`: append `len as u8` then the UTF-8 bytes; returns
the starting offset.  (The byte encoding is written for the ASCII strings
that actually occur; for ASCII, UTF-8 bytes and code points coincide.) -/
def new_const (m : VmModule) (val : String) : Nat × VmModule :=
  let index := m.constants.length
  (index, { m with constants :=
    m.constants ++ (val.length % 256) :: val.toList.map Char.toNat })

/-- `Module::push_fn`. -/
def push_fn (m : VmModule) (index : Nat) (f : VmFunction) : VmModule :=
  { m with functions := m.functions ++ [(index, f)] }

/-- `Module::get_fn` (`HashMap::get` + `unwrap`). -/
def get_fn (m : VmModule) (index : Nat) : Option VmFunction :=
  (m.functions.find? (fun p => p.1 = index)).map Prod.snd

/-- Read `count` constant-pool bytes starting at `start` (the iterator
walk inside `Module::get_main`; `none` models the `unwrap` panic on a
pool overrun). -/
def read_consts (m : VmModule) : Nat → Nat → Option (List Nat)
  | _, 0 => some []
  | start, count + 1 => do
    let b ← m.constants[start]?
    let rest ← read_consts m (start + 1) count
    some (b :: rest)

/-- The name stored at constant index `i` (length byte, then that many
bytes pushed as `char`s — `u8 as char`, i.e. code points 0–255). -/
def const_name (m : VmModule) (i : Nat) : Option String := do
  let len ← m.constants[i]?
  let bytes ← read_consts m (i + 1) len
  some (String.mk (bytes.map Char.ofNat))

/-- `Module::get_main`: the function whose pool name is `"main"`. -/
def get_main (m : VmModule) : Option VmFunction :=
  (m.functions.find? (fun p => const_name m p.1 == some "main")).map Prod.snd

/-! ## Stack and integer plumbing (src/libvm/src/vm.rs helpers) -/

/-- `Vec::pop` (last element; `none` = pop on empty = `unwrap` panic at
every VM call site). -/
def vpop : List Nat → Option (Nat × List Nat)
  | [] => none
  | x :: xs =>
    match vpop xs with
    | none => some (x, [])
    | some (b, r) => some (b, x :: r)

/-- `Vm::pop_32`: pop four bytes, then reverse them back into memory
order (lowest stack address first). -/
def pop_32 (s : List Nat) : Option (List Nat × List Nat) := do
  let (a, s1) ← vpop s
  let (b, s2) ← vpop s1
  let (c, s3) ← vpop s2
  let (d, s4) ← vpop s3
  some ([a, b, c, d].reverse, s4)

/-- `Vm::push_32` (pushes the four bytes in order, so the list is appended
as is). -/
def push_32 (s : List Nat) (v : List Nat) : List Nat := s ++ v

/-- Two's-complement value of a 32-bit pattern. -/
def to_i32 (u : Nat) : Int :=
  if u < 2147483648 then (u : Int) else (u : Int) - 4294967296

/-- The four little-endian bytes of an `i32` (its 32-bit pattern, low byte
first) — the layout `Vm::push_i32` writes with `LittleEndian::write_i32`. -/
def le_bytes (v : Int) : List Nat :=
  let u := (v % 4294967296).toNat
  [u % 256, u / 256 % 256, u / 65536 % 256, u / 16777216 % 256]

/-- `Vm::push_i32`. -/
def push_i32 (s : List Nat) (v : Int) : List Nat := s ++ le_bytes v

/-- Decode the four memory-order bytes of `pop_32` as a little-endian
`i32` (`LittleEndian::read_i32`). -/
def decode_i32 : List Nat → Int
  | [a, b, c, d] => to_i32 (a + 256 * b + 65536 * c + 16777216 * d)
  | _ => 0

/-- `Vm::pop_i32`. -/
def pop_i32 (s : List Nat) : Option (Int × List Nat) :=
  (pop_32 s).map (fun p => (decode_i32 p.1, p.2))

/-- `Vm::get_int`: peek (without popping) the top four stack bytes in
memory order; `none` models the `unwrap` panic on underflow. -/
def get_int (s : List Nat) : Option (List Nat) :=
  if s.length < 4 then none else some (s.drop (s.length - 4))

/-! ## Module::call argument popping (src/libvm/src/module.rs) -/

/-- Pop `count` bytes one at a time, appending each to `params`
(the inner `for _ in 0..len` loop of `Module::call`). -/
def pop_n : Nat → List Nat → List Nat → Option (List Nat × List Nat)
  | 0, stack, params => some (params, stack)
  | count + 1, stack, params => do
    let (b, stack') ← vpop stack
    pop_n count stack' (params ++ [b])

/-- The outer `for param in func.params()` loop of `Module::call`: each
parameter type contributes its width (`Type::I32 => 4`; the source match
has no other arm, so any other type is a fault). -/
def pop_params_loop : List VmType → List Nat → List Nat → Option (List Nat × List Nat)
  | [], stack, params => some (params, stack)
  | t :: ts, stack, params => do
    let len ← match t with | .I32 => some 4 | _ => none
    let (params', stack') ← pop_n len stack params
    pop_params_loop ts stack' params'

/-- Argument extraction of `Module::call`: pop per-parameter bytes, then
`params.reverse()`. -/
def pop_params (ts : List VmType) (stack : List Nat) :
    Option (List Nat × List Nat) :=
  (pop_params_loop ts stack []).map (fun p => (p.1.reverse, p.2))

/-! ## The virtual machine (src/libvm/src/vm.rs)

Opcode values are those of `src/libvm/src/consts.rs`:
`NOP 0x00, PUSH_I 0x01, ADD_I 0x0c, SUB_I 0x0d, MUL_I 0x0e, DIV_I 0x0f,
MOD_I 0x10, NE 0x11, EQ 0x12, GT_I 0x13, LT_I 0x14, LE_I 0x15, GE_I 0x16,
NOT 0x17, NEG_I 0x18, CMP_I 0x20, GT_F 0x23, LT_F 0x24, LE_F 0x25,
GE_F 0x26, NEG_F 0x28, ADD_F 0x2c, SUB_F 0x2d, MUL_F 0x2e, DIV_F 0x2f,
MOD_F 0x30, IF_T 0xa0, IF_F 0xa1, IF_NE 0xa2, IF_EQ 0xa3, IF_GT 0xa4,
IF_LT 0xa5, IF_LE 0xa6, IF_GE 0xa7, GOTO 0xc0, DUP_I 0xdf, LDC 0xfa,
LOAD_I 0xfb, STO_I 0xfc, CALL 0xfd, VIRTUAL 0xfe, RET_I 0xff`.
`Vm::execute` has no arm for `NOP`/`NEG_F` (and `consts.rs` defines no
values for the `STO_V`/`LOAD_V` arms), so those bytes fall into the fatal
unknown-opcode arm. -/

/-- The state of one `Vm` invocation, plus the lines printed so far (the
`println!` side effects, threaded through nested calls in program order). -/
structure VmState where
  program : List Nat
  index : Nat
  stack : List Nat
  regs : List Nat
  out : List String
deriving DecidableEq, Repr

/-- Outcome of one `Vm::execute` dispatch: continue, or `RET_I`'s early
return carrying the returned bytes. -/
inductive StepRes where
  | next (s : VmState)
  | ret (bytes : List Nat) (s : VmState)
deriving DecidableEq, Repr

/-- The `binary_operator!(i op)` expansion: pop rhs, pop lhs, push the
`i32` result (re-encoded modulo 2^32 by `push_i32`). -/
def ibinop (f : Int → Int → Option Int) (i : Nat) (s : VmState) :
    Option StepRes := do
  let (rhs, s1) ← pop_i32 s.stack
  let (lhs, s2) ← pop_i32 s1
  let v ← f lhs rhs
  some (.next { s with index := i, stack := push_i32 s2 v })

/-- The `binary_operator!(ib op)` expansion: pop rhs, pop lhs, push the
comparison result as a single `0`/`1` byte. -/
def ibool (f : Int → Int → Bool) (i : Nat) (s : VmState) : Option StepRes := do
  let (rhs, s1) ← pop_i32 s.stack
  let (lhs, s2) ← pop_i32 s1
  some (.next { s with index := i, stack := s2 ++ [if f lhs rhs then 1 else 0] })

/-- The `ordering!` macro: read the operand byte, pop a byte, and jump to
the operand iff the byte is one of `vals`. -/
def branch_if (vals : List Nat) (i : Nat) (s : VmState) : Option StepRes := do
  let location ← s.program[i]?
  let (v, st) ← vpop s.stack
  some (.next { s with
    index := if vals.contains v then location else i + 1, stack := st })

/-- Overwrite `regs[pos..pos+val.len()]` in place (the `else` branch of the
`STO_I` arm). -/
def write_bytes (regs : List Nat) (pos : Nat) : List Nat → List Nat
  | [] => regs
  | v :: vs => write_bytes (regs.set pos v) (pos + 1) vs

/-- Decode the bytes `[len, s0, …]` popped by the `VIRTUAL 0x02` arm
(`print_str`) into a string.  `std::str::from_utf8` is modelled for the
ASCII pool strings that occur (a non-ASCII byte is a fault, standing in
for both multi-byte decoding — unused here — and invalid UTF-8). -/
def utf8_line (bytes : List Nat) : Option String :=
  if bytes.all (· < 128) then some (String.mk (bytes.map Char.ofNat)) else none

/-- One `Vm::execute` dispatch.  `run` is the whole-program runner used by
the `CALL` arm (instantiated with `exec fuel` below); `m` is the shared
module.  `none` is a fatal fault (unknown opcode, stack underflow,
out-of-range operand read, unmodelled float arithmetic). -/
def step (run : VmModule → VmState → Option (List Nat × List String))
    (m : VmModule) (s : VmState) : Option StepRes := do
  let op ← s.program[s.index]?
  let i := s.index + 1
  match op with
  | 0x01 => do -- PUSH_I: next_int reads 4 bytes and reverses them
    let b1 ← s.program[i]?
    let b2 ← s.program[i + 1]?
    let b3 ← s.program[i + 2]?
    let b4 ← s.program[i + 3]?
    some (.next { s with index := i + 4,
                         stack := push_32 s.stack [b1, b2, b3, b4].reverse })
  | 0x0c => ibinop (fun a b => some (a + b)) i s        -- ADD_I
  | 0x0d => ibinop (fun a b => some (a - b)) i s        -- SUB_I
  | 0x0e => ibinop (fun a b => some (a * b)) i s        -- MUL_I
  | 0x0f => ibinop (fun a b =>                          -- DIV_I
      if b = 0 then none else some (Int.tdiv a b)) i s
  | 0x10 => ibinop (fun a b =>                          -- MOD_I
      if b = 0 then none else some (Int.tmod a b)) i s
  | 0x2c | 0x2d | 0x2e | 0x2f | 0x30 => none            -- ADD_F … MOD_F (f32)
  | 0x18 => do                                          -- NEG_I
    let (n, s1) ← pop_i32 s.stack
    some (.next { s with index := i, stack := push_i32 s1 (-n) })
  | 0x17 => do                                          -- NOT
    let (n, s1) ← vpop s.stack
    some (.next { s with index := i, stack := s1 ++ [if n ≠ 0 then 0 else 1] })
  | 0x11 => ibool (fun a b => a ≠ b) i s                -- NE
  | 0x12 => ibool (fun a b => a = b) i s                -- EQ
  | 0x13 => ibool (fun a b => a > b) i s                -- GT_I
  | 0x14 => ibool (fun a b => a < b) i s                -- LT_I
  | 0x16 => ibool (fun a b => a ≥ b) i s                -- GE_I
  | 0x15 => ibool (fun a b => a ≤ b) i s                -- LE_I
  | 0x23 | 0x24 | 0x26 | 0x25 => none                   -- GT_F … LE_F (f32)
  | 0xdf => do                                          -- DUP_I
    let top ← get_int s.stack
    some (.next { s with index := i, stack := push_32 s.stack top })
  | 0xc0 => do                                          -- GOTO
    let location ← s.program[i]?
    some (.next { s with index := location })
  | 0xfc => do                                          -- STO_I
    let reg ← s.program[i]?
    let (val, st) ← pop_32 s.stack
    let regs' := if s.regs.length ≤ reg + 3 then s.regs ++ val
                 else write_bytes s.regs reg val
    some (.next { s with index := i + 1, stack := st, regs := regs' })
  | 0xfb => do                                          -- LOAD_I
    let reg ← s.program[i]?
    let a ← s.regs[reg]?
    let b ← s.regs[reg + 1]?
    let c ← s.regs[reg + 2]?
    let d ← s.regs[reg + 3]?
    some (.next { s with index := i + 1, stack := s.stack ++ [a, b, c, d] })
  | 0xfd => do                                          -- CALL → Module::call
    let index ← s.program[i]?
    let f ← get_fn m index
    let (args, st) ← pop_params f.params s.stack
    let (ret, out') ← run m ⟨f.program, 0, [], args, s.out⟩
    some (.next { s with index := i + 1, stack := st ++ ret, out := out' })
  | 0xfe => do                                          -- VIRTUAL
    let call ← s.program[i]?
    if call = 0x00 then do                              -- print_int
      let (v, st) ← pop_i32 s.stack
      some (.next { s with index := i + 1, stack := st,
                           out := s.out ++ [toString v] })
    else if call = 0x01 then                            -- debug dump
      some (.next { s with
        index := i + 1,
        out := s.out ++ ["STACK: " ++ toString s.stack ++
                         "\nREGS: " ++ toString s.regs] })
    else if call = 0x02 then do                         -- print_str
      let (len, st) ← vpop s.stack
      let (val, st') ← pop_n len st []
      let line ← utf8_line val
      some (.next { s with index := i + 1, stack := st', out := s.out ++ [line] })
    else if call = 0x03 then none                       -- print_float (f32)
    else                                                -- `_ => {}`
      some (.next { s with index := i + 1 })
  | 0xfa => do                                          -- LDC
    let index ← s.program[i]?
    let len ← m.constants[index]?
    let constant ← read_consts m index (len + 1)
    some (.next { s with index := i + 1, stack := s.stack ++ constant.reverse })
  | 0xff => do                                          -- RET_I
    let (bytes, st) ← pop_32 s.stack
    some (.ret bytes { s with index := i, stack := st })
  | 0x20 => do                                          -- CMP_I
    let (a, s1) ← pop_i32 s.stack
    let (b, s2) ← pop_i32 s1
    some (.next { s with
      index := i,
      stack := s2 ++ [if a = b then 0x00 else if a > b then 0x01 else 0x02] })
  | 0xa0 => branch_if [0x01] i s                        -- IF_T
  | 0xa1 => branch_if [0x00] i s                        -- IF_F
  | 0xa2 => branch_if [0x01, 0x02] i s                  -- IF_NE
  | 0xa3 => branch_if [0x00] i s                        -- IF_EQ
  | 0xa4 => branch_if [0x01] i s                        -- IF_GT
  | 0xa5 => branch_if [0x02] i s                        -- IF_LT
  | 0xa6 => branch_if [0x02, 0x00] i s                  -- IF_LE
  | 0xa7 => branch_if [0x01, 0x00] i s                  -- IF_GE
  | _ => none                                           -- unknown opcode: fatal

/-- `Vm::run`: the `while self.index < self.program.len()` dispatch loop.
Returns the `RET_I` bytes (or `[]` after falling off the end) together
with everything printed.  Fuel bounds the number of executed instructions,
nested calls included. -/
def exec : Nat → VmModule → VmState → Option (List Nat × List String)
  | 0, _, _ => none
  | fuel + 1, m, s =>
    if s.index < s.program.length then
      match step (exec fuel) m s with
      | some (.next s') => exec fuel m s'
      | some (.ret bytes s') => some (bytes, s'.out)
      | none => none
    else some ([], s.out)

/-- `Function::run` (a fresh `Vm` on the function's program, registers
initialised with the caller-provided bytes). -/
def function_run (fuel : Nat) (m : VmModule) (f : VmFunction)
    (params : List Nat) (out : List String) : Option (List Nat × List String) :=
  exec fuel m ⟨f.program, 0, [], params, out⟩

/-- `Module::call(function, stack)`: look the function up, pop the
argument bytes, reverse them, run the function.  Returns the returned
bytes, the caller stack left after popping, and the printed lines. -/
def module_call (fuel : Nat) (m : VmModule) (function : Nat)
    (stack : List Nat) (out : List String) :
    Option (List Nat × List Nat × List String) := do
  let f ← get_fn m function
  let (params, stack') ← pop_params f.params stack
  let (ret, out') ← function_run fuel m f params out
  some (ret, stack', out')

/-! ## Code generation (src/libcodegen/src/opcode.rs) -/

/-- `ast_type_to_vm_type`. -/
def ast_type_to_vm_type : AstType → VmType
  | .Int => .I32
  | .Float => .F32
  | .Void => .Void
  | .Str => .String

/-- Drop `n` bytes from the front of a character sequence (byte-offset
slicing as done by `&self.input[a..b]`; offsets produced by the lexer are
always character-aligned). -/
def byte_drop : List Char → Nat → List Char
  | cs, 0 => cs
  | [], _ + 1 => []
  | c :: cs, n + 1 => byte_drop cs (n + 1 - c.utf8Size)

/-- Take `n` bytes from the front of a character sequence. -/
def byte_take : List Char → Nat → List Char
  | _, 0 => []
  | [], _ + 1 => []
  | c :: cs, n + 1 => c :: byte_take cs (n + 1 - c.utf8Size)

/-- `OpcodeGenerator::to_str(span)`: the source text
`input[span.pos.0 .. span.pos.1]`. -/
def to_str (input : List Char) (span : Span) : String :=
  String.mk (byte_take (byte_drop input span.pos.1) (span.pos.2 - span.pos.1))

/-- `num.parse::<i32>()` on the digit-only text of an `Int` literal
(overflow past `i32::MAX` makes the `unwrap` panic — `none`). -/
def parse_i32 (s : String) : Option Int :=
  let cs := s.toList
  if cs ≠ [] ∧ cs.all is_digit then
    let n : Nat := cs.foldl (fun a c => a * 10 + (c.toNat - 48)) 0
    if n ≤ 2147483647 then some (Int.ofNat n) else none
  else none

/-- The mutable fields of `OpcodeGenerator` that the generation functions
thread: the output buffer, the variable map `name → (slot, type)`, the
next slot, the pending-break list, the module under construction, and the
function table `name → (constant index, FnDecl statement)`. -/
structure CG where
  out : List Nat
  var_map : List (String × Nat × VmType)
  var_index : Nat
  break_me : List Nat
  module : VmModule
  functions : List (String × Nat × Statement)
deriving Repr

/-- `HashMap::get` on an association list. -/
def assoc_get (l : List (String × Nat × VmType)) (k : String) :
    Option (Nat × VmType) :=
  (l.find? (fun p => p.1 = k)).map Prod.snd

/-- `HashMap::get` on the function table. -/
def fns_get (l : List (String × Nat × Statement)) (k : String) :
    Option (Nat × Statement) :=
  (l.find? (fun p => p.1 = k)).map Prod.snd

/-- The operator→opcode table of the `Binary` arm (the `F32` guards first,
then the integer fallbacks; `Op::Not` hits `unimplemented!()`). -/
def binary_opcode (op : Op) (lhs : VmType) : Option Nat :=
  if lhs = .F32 then
    match op with
    | .Plus => some 0x2c | .Minus => some 0x2d | .Star => some 0x2e
    | .Slash => some 0x2f | .Mod => some 0x30
    | .Lt => some 0x24 | .Gt => some 0x23 | .LtEq => some 0x25
    | .GtEq => some 0x26
    | .Eq => some 0x12 | .NotEq => some 0x11
    | .Not => none
  else
    match op with
    | .Lt => some 0x14 | .Gt => some 0x13 | .LtEq => some 0x15
    | .GtEq => some 0x16
    | .Plus => some 0x0c | .Minus => some 0x0d | .Star => some 0x0e
    | .Slash => some 0x0f | .Mod => some 0x10
    | .Eq => some 0x12 | .NotEq => some 0x11
    | .Not => none

/-- Sequential generation of call arguments (`for expr in exprs.iter()`),
with the recursive generator passed in. -/
def gen_expr_list (ge : CG → Expression → Option (VmType × CG)) :
    CG → List Expression → Option CG
  | cg, [] => some cg
  | cg, e :: es => do
    let (_, cg') ← ge cg e
    gen_expr_list ge cg' es

/-- `OpcodeGenerator::gen_expr`: emit bytecode for an expression, return
its VM type.  Fuel bounds the expression nesting depth. -/
def gen_expr (input : List Char) : Nat → CG → Expression → Option (VmType × CG)
  | 0, _, _ => none
  | fuel + 1, cg, e =>
    match e with
    | .Binary lhs op rhs _span => do
      let (tl, cg1) ← gen_expr input fuel cg lhs
      let (tr, cg2) ← gen_expr input fuel cg1 rhs
      if tl ≠ tr then none -- type mismatch: error + panic
      else do
        let opc ← binary_opcode op tl
        some (tl, { cg2 with out := cg2.out ++ [opc] })
    | .FunctionCall ident_span exprs =>
      let name := to_str input ident_span
      if name = "print_int" then do
        let e0 ← exprs.head?  -- `exprs.get(0).unwrap()`
        let (_, cg1) ← gen_expr input fuel cg e0
        some (.Void, { cg1 with out := cg1.out ++ [0xfe, 0] })
      else if name = "debug" then
        some (.Void, { cg with out := cg.out ++ [0xfe, 1] })
      else if name = "print_float" then do
        let e0 ← exprs.head?
        let (_, cg1) ← gen_expr input fuel cg e0
        some (.Void, { cg1 with out := cg1.out ++ [0xfe, 3] })
      else if name = "print_str" then do
        let e0 ← exprs.head?
        let (_, cg1) ← gen_expr input fuel cg e0
        some (.Void, { cg1 with out := cg1.out ++ [0xfe, 2] })
      else do
        let cg1 ← gen_expr_list (gen_expr input fuel) cg exprs
        match fns_get cg1.functions name with
        | some (index, stmt) =>
          let ret : VmType :=
            match stmt with
            | .FnDecl _ return_type _ _ => ast_type_to_vm_type return_type
            | _ => .Void
          some (ret, { cg1 with out := cg1.out ++ [0xfd, index % 256] })
        | none => none -- unknown function: error + panic
    | .Ident val =>
      let ident := to_str input val
      match assoc_get cg.var_map ident with
      | some (index, var_type) =>
        some (var_type, { cg with out := cg.out ++ [0xfb, index] })
      | none => none -- undefined variable: error + panic
    | .Literal val kind =>
      match kind with
      | .Int => do
        let num ← parse_i32 (to_str input val)
        let x := (num % 4294967296).toNat
        some (.I32, { cg with out := cg.out ++
          [0x01, x / 16777216 % 256, x / 65536 % 256, x / 256 % 256, x % 256] })
      | .String =>
        let val := to_str input val
        let interior := String.mk ((val.toList.drop 1).dropLast)
        let (c_index, module') := new_const cg.module interior
        some (.String, { cg with module := module',
                                 out := cg.out ++ [0xfa, c_index % 256] })
      | .Float => none -- host f32 transmute: outside the embedding
    | .Unary op operand _span => do
      let (t, cg1) ← gen_expr input fuel cg operand
      let instruction ← match op with
        | .Minus => some 0x18
        | .Not => some 0x17
        | _ => none -- "Only '-' or '!' in unary expressions": error + panic
      some (t, { cg1 with out := cg1.out ++ [instruction] })
    | .Dummy => none -- panic

/-- Statement iteration of `gen_block` (`for stmt in block.body.iter()`),
with the single-statement generator passed in. -/
def gen_stmts (gs : CG → Statement → Option CG) : CG → List Statement → Option CG
  | cg, [] => some cg
  | cg, st :: rest => do
    let cg' ← gs cg st
    gen_stmts gs cg' rest

/-- One statement of `OpcodeGenerator::gen_block` (fuel bounds block
nesting).  `return_type` is the threaded function return type. -/
def gen_stmt (input : List Char) : Nat → CG → VmType → Statement → Option CG
  | 0, _, _, _ => none
  | fuel + 1, cg, return_type, stmt =>
    match stmt with
    | .Expression e => do
      let (_, cg1) ← gen_expr input fuel cg e
      some cg1
    | .Assign name e => do
      let (var_type, cg1) ← gen_expr input fuel cg e
      let name := to_str input name
      match assoc_get cg1.var_map name with
      | some (index, _) => some { cg1 with out := cg1.out ++ [0xfc, index] }
      | none =>
        some { cg1 with
          out := cg1.out ++ [0xfc, cg1.var_index % 256],
          var_map := cg1.var_map ++ [(name, cg1.var_index, var_type)],
          var_index := cg1.var_index + 4 }
    | .Mutate name e => do
      let (_, cg1) ← gen_expr input fuel cg e
      let name := to_str input name
      match assoc_get cg1.var_map name with
      | some (index, _) => some { cg1 with out := cg1.out ++ [0xfc, index] }
      | none => none -- "Variable is undefined": error + panic
    | .If e block _next => do
      let (_, cg1) ← gen_expr input fuel cg e
      let set_me := (cg1.out ++ [0xa1]).length
      let cg2 := { cg1 with out := cg1.out ++ [0xa1, 0] }
      let cg3 ← gen_stmts (fun c s => gen_stmt input fuel c return_type s)
        cg2 block.body
      some { cg3 with out := cg3.out.set set_me (cg3.out.length % 256) }
    | .Loop block => do
      let start := cg.out.length
      let cg1 ← gen_stmts (fun c s => gen_stmt input fuel c return_type s)
        cg block.body
      let cg2 := { cg1 with out := cg1.out ++ [0xc0, start % 256] }
      let endi := cg2.out.length
      let patched := cg2.break_me.foldl (fun o i => o.set i (endi % 256)) cg2.out
      some { cg2 with out := patched, break_me := [] }
    | .Return e _span => do
      let (expr_type, cg1) ← gen_expr input fuel cg e
      let cg2 := { cg1 with out := cg1.out ++ [0xff] }
      if expr_type ≠ return_type then none -- return-type mismatch: error + panic
      else some cg2
    | .Break =>
      let cg1 := { cg with out := cg.out ++ [0xc0, 0] }
      some { cg1 with break_me := cg1.break_me ++ [cg1.out.length - 1] }
    | _ => none -- FnDecl / Else / Dummy inside a block: unimplemented!()

/-- `OpcodeGenerator::gen_block`. -/
def gen_block (input : List Char) (fuel : Nat) (cg : CG) (block : Block)
    (return_type : VmType) : Option CG :=
  gen_stmts (fun c s => gen_stmt input fuel c return_type s) cg block.body

/-- The `reset` between functions (`out`, `break_me`, `var_map`,
`var_index` cleared; module and function table persist). -/
def cg_reset (cg : CG) : CG :=
  { cg with out := [], break_me := [], var_map := [], var_index := 0 }

/-- Parameter interning of `gen_module`: each `Ident::Typed` gets the next
4-byte slot in the variable map and contributes its VM type; `Untyped` is
`unimplemented!()`. -/
def intern_params (input : List Char) : CG → List PIdent → Option (List VmType × CG)
  | cg, [] => some ([], cg)
  | cg, .Typed span arg_type :: rest => do
    let vt := ast_type_to_vm_type arg_type
    let cg1 := { cg with
      var_map := cg.var_map ++ [(to_str input span, cg.var_index, vt)],
      var_index := cg.var_index + 4 }
    let (ts, cg2) ← intern_params input cg1 rest
    some (vt :: ts, cg2)
  | _, .Untyped _ :: _ => none

/-- `OpcodeGenerator::gen_module`: only `FnDecl`s at the top level; each
is interned, its parameters allocated, its body generated, the per-function
state reset, and the `Function` inserted at the interned index. -/
def gen_module_stmts (input : List Char) (fuel : Nat) : CG → List Statement → Option CG
  | cg, [] => some cg
  | cg, stmt :: rest =>
    match stmt with
    | .FnDecl name return_type args block => do
      let fname := to_str input name
      match fns_get cg.functions fname with
      | some _ => none -- "Function already exists": error + panic
      | none => do
        let (index, module') := new_const cg.module fname
        let cg1 := { cg with
          module := module',
          functions := cg.functions ++ [(fname, index, stmt)] }
        let (arg_types, cg2) ← intern_params input cg1 args
        let cg3 ← gen_block input fuel cg2 block (ast_type_to_vm_type return_type)
        let instructions := cg3.out
        let cg4 := cg_reset cg3
        let func : VmFunction :=
          ⟨instructions, arg_types, ast_type_to_vm_type return_type⟩
        let cg5 := { cg4 with module := push_fn cg4.module index func }
        gen_module_stmts input fuel cg5 rest
    | _ => none -- "Only function decls in root block": panic

/-- A fresh `OpcodeGenerator` (module defaulted empty). -/
def cg_new : CG := ⟨[], [], 0, [], ⟨[], []⟩, []⟩

/-- `OpcodeGenerator::gen_module` on the parsed top-level block, returning
the built module. -/
def gen_module (input : List Char) (fuel : Nat) (block : Block) : Option VmModule := do
  let cg ← gen_module_stmts input fuel cg_new block.body
  some cg.module

/-! ## The end-to-end pipeline (src/main.rs shape: tokenize, parse,
`gen_module`, `get_main`, run with empty registers). -/

/-- Compile a source string and run its `main`, collecting the printed
lines.  `none` = lexer divergence, a reported-and-fatal front-end error, a
VM fault, or fuel exhaustion. -/
def compile_and_run (input : String) (fuel : Nat) : Option (List String) := do
  let toks ← tokenize input.toList
  let block := parser_parse fuel toks
  let m ← gen_module input.toList fuel block
  let f ← get_main m
  let (_, out) ← exec fuel m ⟨f.program, 0, [], [], []⟩
  some out

/-! ## General lemmas about the embedded operations -/

/-- Unfolding `vpop` on a cons cell. -/
theorem vpop_cons (a : Nat) (xs : List Nat) :
    vpop (a :: xs) = match vpop xs with
      | none => some (a, [])
      | some (b, r) => some (b, a :: r) := by
  cases xs <;> rfl

/-- `Vec::pop` returns the last pushed element. -/
theorem vpop_append (s : List Nat) (x : Nat) : vpop (s ++ [x]) = some (x, s) := by
  induction s with
  | nil => rfl
  | cons a s ih => rw [List.cons_append, vpop_cons, ih]

/-- `pop_32` undoes pushing four bytes. -/
theorem pop_32_append (s : List Nat) (a b c d : Nat) :
    pop_32 (s ++ [a, b, c, d]) = some ([a, b, c, d], s) := by
  have h4 : vpop (s ++ [a, b, c, d]) = some (d, s ++ [a, b, c]) := by
    rw [show s ++ [a, b, c, d] = (s ++ [a, b, c]) ++ [d] by simp, vpop_append]
  have h3 : vpop (s ++ [a, b, c]) = some (c, s ++ [a, b]) := by
    rw [show s ++ [a, b, c] = (s ++ [a, b]) ++ [c] by simp, vpop_append]
  have h2 : vpop (s ++ [a, b]) = some (b, s ++ [a]) := by
    rw [show s ++ [a, b] = (s ++ [a]) ++ [b] by simp, vpop_append]
  have h1 : vpop (s ++ [a]) = some (a, s) := vpop_append s a
  simp only [pop_32, h4, h3, h2, h1, Option.bind_eq_bind, Option.some_bind,
    List.reverse_cons, List.reverse_nil]
  rfl

/-- The four bytes of `le_bytes`, spelled out. -/
theorem le_bytes_eq (v : Int) :
    le_bytes v = [(v % 4294967296).toNat % 256, (v % 4294967296).toNat / 256 % 256,
      (v % 4294967296).toNat / 65536 % 256, (v % 4294967296).toNat / 16777216 % 256] := rfl

/-- Decoding the bytes written by `push_i32` gives back the `i32`. -/
theorem decode_le_bytes (v : Int) (h1 : -2147483648 ≤ v) (h2 : v < 2147483648) :
    decode_i32 (le_bytes v) = v := by
  rw [le_bytes_eq]
  simp only [decode_i32, to_i32]
  split <;> omega

/-- Popping the 32 bits pushed by `push_i32`. -/
theorem pop_32_le_bytes (s : List Nat) (v : Int) :
    pop_32 (s ++ le_bytes v) = some (le_bytes v, s) := by
  rw [le_bytes_eq, pop_32_append, ← le_bytes_eq]

/-- `pop_i32` undoes `push_i32` for in-range values. -/
theorem pop_i32_le_bytes (s : List Nat) (v : Int)
    (h1 : -2147483648 ≤ v) (h2 : v < 2147483648) :
    pop_i32 (s ++ le_bytes v) = some (v, s) := by
  simp [pop_i32, pop_32_le_bytes, decode_le_bytes v h1 h2]

/-- `write_bytes` with four bytes is a chain of `List.set`. -/
theorem write_bytes_four (regs : List Nat) (p x0 x1 x2 x3 : Nat) :
    write_bytes regs p [x0, x1, x2, x3]
      = ((((regs.set p x0).set (p+1) x1).set (p+2) x2).set (p+3) x3) := by
  simp [write_bytes]

/-- Reading back and framing after a four-byte register overwrite. -/
theorem write4_sets (regs : List Nat) (p x0 x1 x2 x3 : Nat) (h : p + 4 ≤ regs.length) :
    (write_bytes regs p [x0, x1, x2, x3])[p]? = some x0
    ∧ (write_bytes regs p [x0, x1, x2, x3])[p + 1]? = some x1
    ∧ (write_bytes regs p [x0, x1, x2, x3])[p + 2]? = some x2
    ∧ (write_bytes regs p [x0, x1, x2, x3])[p + 3]? = some x3
    ∧ (write_bytes regs p [x0, x1, x2, x3]).length = regs.length
    ∧ ∀ i, i < p ∨ p + 4 ≤ i →
        (write_bytes regs p [x0, x1, x2, x3])[i]? = regs[i]? := by
  rw [write_bytes_four]
  refine ⟨?_, ?_, ?_, ?_, by simp, ?_⟩
  · rw [List.getElem?_set_ne (by omega), List.getElem?_set_ne (by omega),
      List.getElem?_set_ne (by omega), List.getElem?_set_self (by simpa using by omega)]
  · rw [List.getElem?_set_ne (by omega), List.getElem?_set_ne (by omega),
      List.getElem?_set_self (by simpa using by omega)]
  · rw [List.getElem?_set_ne (by omega),
      List.getElem?_set_self (by simpa using by omega)]
  · rw [List.getElem?_set_self (by simpa using by omega)]
  · intro i hi
    rw [List.getElem?_set_ne (by omega), List.getElem?_set_ne (by omega),
      List.getElem?_set_ne (by omega), List.getElem?_set_ne (by omega)]

/-- A list of length four is a four-element literal. -/
theorem list_len_four {l : List Nat} (h : l.length = 4) :
    ∃ a b c d, l = [a, b, c, d] := by
  rcases l with _ | ⟨a, _ | ⟨b, _ | ⟨c, _ | ⟨d, _ | t⟩⟩⟩⟩ <;> simp_all

/-- Popping four bytes one at a time accumulates them in reverse order. -/
theorem pop_n_four (s : List Nat) (a b c d : Nat) (acc : List Nat) :
    pop_n 4 (s ++ [a, b, c, d]) acc = some (acc ++ [d, c, b, a], s) := by
  have h4 : vpop (s ++ [a, b, c, d]) = some (d, s ++ [a, b, c]) := by
    rw [show s ++ [a, b, c, d] = (s ++ [a, b, c]) ++ [d] by simp, vpop_append]
  have h3 : vpop (s ++ [a, b, c]) = some (c, s ++ [a, b]) := by
    rw [show s ++ [a, b, c] = (s ++ [a, b]) ++ [c] by simp, vpop_append]
  have h2 : vpop (s ++ [a, b]) = some (b, s ++ [a]) := by
    rw [show s ++ [a, b] = (s ++ [a]) ++ [b] by simp, vpop_append]
  have h1 : vpop (s ++ [a]) = some (a, s) := vpop_append s a
  show (do
    let (x, s1) ← vpop (s ++ [a, b, c, d])
    pop_n 3 s1 (acc ++ [x])) = _
  rw [h4]
  show (do
    let (x, s1) ← vpop (s ++ [a, b, c])
    pop_n 2 s1 (acc ++ [d] ++ [x])) = _
  rw [h3]
  show (do
    let (x, s1) ← vpop (s ++ [a, b])
    pop_n 1 s1 (acc ++ [d] ++ [c] ++ [x])) = _
  rw [h2]
  show (do
    let (x, s1) ← vpop (s ++ [a])
    pop_n 0 s1 (acc ++ [d] ++ [c] ++ [b] ++ [x])) = _
  rw [h1]
  simp [pop_n]

/-- The popping loop of `Module::call` on `k` parameters of type `I32`
consumes exactly the top `4 * k` stack bytes, reversed. -/
theorem pop_params_loop_replicate :
    ∀ (k : Nat) (below args acc : List Nat), args.length = 4 * k →
    pop_params_loop (List.replicate k .I32) (below ++ args) acc
      = some (acc ++ args.reverse, below) := by
  intro k
  induction k with
  | zero =>
    intro below args acc h
    have : args = [] := List.eq_nil_of_length_eq_zero (by omega)
    subst this
    simp [pop_params_loop]
  | succ k ih =>
    intro below args acc h
    have hlen : (args.take (4 * k)).length = 4 * k := by
      rw [List.length_take]; omega
    have hlen2 : (args.drop (4 * k)).length = 4 := by
      rw [List.length_drop]; omega
    obtain ⟨a, b, c, d, hd⟩ := list_len_four hlen2
    have hargs : args = args.take (4 * k) ++ [a, b, c, d] := by
      rw [← hd, List.take_append_drop]
    rw [hargs, List.replicate_succ]
    show (do
      let (params', stack') ← pop_n 4 (below ++ (args.take (4 * k) ++ [a, b, c, d])) acc
      pop_params_loop (List.replicate k .I32) stack' params') = _
    rw [← List.append_assoc, pop_n_four]
    show pop_params_loop (List.replicate k .I32)
        (below ++ args.take (4 * k)) (acc ++ [d, c, b, a]) = _
    rw [ih _ _ _ hlen]
    simp

/-- `Module::call`'s argument extraction pops exactly the top `4 * k`
bytes and restores their order. -/
theorem pop_params_replicate (k : Nat) (below args : List Nat)
    (h : args.length = 4 * k) :
    pop_params (List.replicate k .I32) (below ++ args) = some (args, below) := by
  simp [pop_params, pop_params_loop_replicate k below args [] h]

/-! ## Lexer length lemmas -/

/-- Byte length of a cons. -/
theorem byte_len_cons (c : Char) (cs : List Char) :
    byte_len (c :: cs) = c.utf8Size + byte_len cs := by
  simp [byte_len]

/-- Dropping the head cannot increase the byte length. -/
theorem byte_len_le_cons (c : Char) (cs : List Char) :
    byte_len cs ≤ byte_len (c :: cs) := by
  rw [byte_len_cons]; omega

/-- The whitespace run only consumes. -/
theorem skip_whitespace_le (cs : List Char) :
    byte_len (skip_whitespace cs) ≤ byte_len cs := by
  induction cs with
  | nil => simp [skip_whitespace]
  | cons c cs ih =>
    rw [skip_whitespace]
    split
    · exact le_trans ih (byte_len_le_cons c cs)
    · exact le_refl _

/-- The line-comment loop only consumes (when it terminates). -/
theorem skip_line_comment_le (cs r : List Char)
    (h : skip_line_comment cs = some r) : byte_len r ≤ byte_len cs := by
  induction cs with
  | nil => simp [skip_line_comment] at h
  | cons c cs ih =>
    rw [skip_line_comment] at h
    split at h
    · cases h; exact le_refl _
    · exact le_trans (ih h) (byte_len_le_cons c cs)

/-- The block-comment loop only consumes (when it terminates). -/
theorem skip_block_comment_le (cs r : List Char)
    (h : skip_block_comment cs = some r) : byte_len r ≤ byte_len cs := by
  induction cs with
  | nil => simp [skip_block_comment] at h
  | cons c cs ih =>
    rw [skip_block_comment] at h
    split at h
    · cases h
      calc byte_len cs.tail ≤ byte_len cs := by
            cases cs
            · simp
            · simp [byte_len_cons]
        _ ≤ byte_len (c :: cs) := byte_len_le_cons c cs
    · exact le_trans (ih h) (byte_len_le_cons c cs)

/-- The string-literal loop only consumes (when it terminates). -/
theorem skip_string_le (cs r : List Char)
    (h : skip_string cs = some r) : byte_len r ≤ byte_len cs := by
  induction cs with
  | nil => simp [skip_string] at h
  | cons c cs ih =>
    rw [skip_string] at h
    split at h
    · cases h; exact byte_len_le_cons _ _
    · exact le_trans (ih h) (byte_len_le_cons c cs)

/-- The number scan only consumes. -/
theorem skip_number_le (cs : List Char) :
    ∀ b, byte_len (skip_number cs b).2 ≤ byte_len cs := by
  induction cs with
  | nil => intro b; simp [skip_number]
  | cons c cs ih =>
    intro b
    rw [skip_number]
    split
    · split
      · split
        · exact le_refl _
        · exact le_trans (ih true) (byte_len_le_cons c cs)
      · exact le_trans (ih true) (byte_len_le_cons c cs)
    · split
      · exact le_trans (ih b) (byte_len_le_cons c cs)
      · exact le_refl _

/-- The identifier scan only consumes. -/
theorem skip_ident_le (cs : List Char) :
    ∀ buf, byte_len (skip_ident buf cs).2 ≤ byte_len cs := by
  induction cs with
  | nil => intro buf; simp [skip_ident]
  | cons c cs ih =>
    intro buf
    rw [skip_ident]
    split
    · exact le_trans (ih _) (byte_len_le_cons c cs)
    · exact le_refl _

/-- `Cursor::next_token` never hands back more input than it was given:
the remaining suffix is byte-wise no longer than the input.  (Proved by
walking the dispatch tree of `next_token` branch by branch.) -/
theorem next_token_le (cs : List Char) (k : TokenKind) (r : List Char)
    (h : next_token cs = some (k, r)) : byte_len r ≤ byte_len cs := by
  match cs with
  | [] => exact Option.noConfusion ((show next_token [] = none from rfl) ▸ h)
  | c :: cs =>
    have hcons := byte_len_le_cons c cs
    rw [next_token.eq_def] at h
    simp only [] at h
    by_cases h1 : is_whitespace c = true
    · rw [if_pos h1] at h
      cases h; exact le_trans (skip_whitespace_le cs) hcons
    · rw [if_neg h1] at h
      by_cases h2 : c = '/'
      · rw [if_pos h2] at h
        rcases cs with _ | ⟨c2, cs2⟩
        · cases h; exact hcons
        · split at h
          · rename_i cs2x heq
            injection heq with hhd htl
            subst htl
            rcases Option.map_eq_some'.mp h with ⟨r2, hl, heq2⟩
            cases heq2
            exact le_trans (le_trans (skip_line_comment_le cs2 _ hl)
              (byte_len_le_cons _ _)) hcons
          · rename_i cs2x heq
            injection heq with hhd htl
            subst htl
            rcases Option.map_eq_some'.mp h with ⟨r2, hl, heq2⟩
            cases heq2
            exact le_trans (le_trans (skip_block_comment_le cs2 _ hl)
              (byte_len_le_cons _ _)) hcons
          · cases h; exact hcons
      · rw [if_neg h2] at h
        by_cases h3 : c = '"'
        · rw [if_pos h3] at h
          rcases Option.map_eq_some'.mp h with ⟨r2, hl, heq⟩
          cases heq
          exact le_trans (skip_string_le cs _ hl) hcons
        · rw [if_neg h3] at h
          by_cases h4 : is_digit c = true
          · rw [if_pos h4] at h
            cases h; exact le_trans (skip_number_le cs false) hcons
          · rw [if_neg h4] at h
            by_cases h5 : is_ident_first c = true
            · rw [if_pos h5] at h
              cases h; exact le_trans (skip_ident_le cs [c]) hcons
            · rw [if_neg h5] at h
              by_cases h6 : c = ';'
              · rw [if_pos h6] at h
                cases h; exact hcons
              · rw [if_neg h6] at h
                by_cases h7 : c = '('
                · rw [if_pos h7] at h
                  cases h; exact hcons
                · rw [if_neg h7] at h
                  by_cases h8 : c = ')'
                  · rw [if_pos h8] at h
                    cases h; exact hcons
                  · rw [if_neg h8] at h
                    by_cases h9 : c = '{'
                    · rw [if_pos h9] at h
                      cases h; exact hcons
                    · rw [if_neg h9] at h
                      by_cases h10 : c = '}'
                      · rw [if_pos h10] at h
                        cases h; exact hcons
                      · rw [if_neg h10] at h
                        by_cases h11 : c = '['
                        · rw [if_pos h11] at h
                          cases h; exact hcons
                        · rw [if_neg h11] at h
                          by_cases h12 : c = ']'
                          · rw [if_pos h12] at h
                            cases h; exact hcons
                          · rw [if_neg h12] at h
                            by_cases h13 : c = ','
                            · rw [if_pos h13] at h
                              cases h; exact hcons
                            · rw [if_neg h13] at h
                              by_cases h14 : c = '.'
                              · rw [if_pos h14] at h
                                cases h; exact hcons
                              · rw [if_neg h14] at h
                                by_cases h15 : c = '?'
                                · rw [if_pos h15] at h
                                  cases h; exact hcons
                                · rw [if_neg h15] at h
                                  by_cases h16 : c = ':'
                                  · rw [if_pos h16] at h
                                    cases h; exact hcons
                                  · rw [if_neg h16] at h
                                    by_cases h17 : c = '+'
                                    · rw [if_pos h17] at h
                                      cases h; exact hcons
                                    · rw [if_neg h17] at h
                                      by_cases h18 : c = '*'
                                      · rw [if_pos h18] at h
                                        cases h; exact hcons
                                      · rw [if_neg h18] at h
                                        by_cases h19 : c = '^'
                                        · rw [if_pos h19] at h
                                          cases h; exact hcons
                                        · rw [if_neg h19] at h
                                          by_cases h20 : c = '%'
                                          · rw [if_pos h20] at h
                                            cases h; exact hcons
                                          · rw [if_neg h20] at h
                                            by_cases h21 : c = '!'
                                            · rw [if_pos h21] at h
                                              rcases cs with _ | ⟨c2, cs2⟩
                                              · cases h; exact hcons
                                              · split at h
                                                · rename_i cs2x heq
                                                  injection heq with hhd htl
                                                  subst htl
                                                  cases h
                                                  exact le_trans (byte_len_le_cons _ _) hcons
                                                · cases h; exact hcons
                                            · rw [if_neg h21] at h
                                              by_cases h22 : c = '='
                                              · rw [if_pos h22] at h
                                                rcases cs with _ | ⟨c2, cs2⟩
                                                · cases h; exact hcons
                                                · split at h
                                                  · rename_i cs2x heq
                                                    injection heq with hhd htl
                                                    subst htl
                                                    cases h
                                                    exact le_trans (byte_len_le_cons _ _) hcons
                                                  · cases h; exact hcons
                                              · rw [if_neg h22] at h
                                                by_cases h23 : c = '&'
                                                · rw [if_pos h23] at h
                                                  rcases cs with _ | ⟨c2, cs2⟩
                                                  · cases h; exact hcons
                                                  · split at h
                                                    · rename_i cs2x heq
                                                      injection heq with hhd htl
                                                      subst htl
                                                      cases h
                                                      exact le_trans (byte_len_le_cons _ _) hcons
                                                    · cases h; exact hcons
                                                · rw [if_neg h23] at h
                                                  by_cases h24 : c = '|'
                                                  · rw [if_pos h24] at h
                                                    rcases cs with _ | ⟨c2, cs2⟩
                                                    · cases h; exact hcons
                                                    · split at h
                                                      · rename_i cs2x heq
                                                        injection heq with hhd htl
                                                        subst htl
                                                        cases h
                                                        exact le_trans (byte_len_le_cons _ _) hcons
                                                      · cases h; exact hcons
                                                  · rw [if_neg h24] at h
                                                    by_cases h25 : c = '<'
                                                    · rw [if_pos h25] at h
                                                      rcases cs with _ | ⟨c2, cs2⟩
                                                      · cases h; exact hcons
                                                      · split at h
                                                        · rename_i cs2x heq
                                                          injection heq with hhd htl
                                                          subst htl
                                                          cases h
                                                          exact le_trans (byte_len_le_cons _ _) hcons
                                                        · cases h; exact hcons
                                                    · rw [if_neg h25] at h
                                                      by_cases h26 : c = '>'
                                                      · rw [if_pos h26] at h
                                                        rcases cs with _ | ⟨c2, cs2⟩
                                                        · cases h; exact hcons
                                                        · split at h
                                                          · rename_i cs2x heq
                                                            injection heq with hhd htl
                                                            subst htl
                                                            cases h
                                                            exact le_trans (byte_len_le_cons _ _) hcons
                                                          · cases h; exact hcons
                                                      · rw [if_neg h26] at h
                                                        by_cases h27 : c = '-'
                                                        · rw [if_pos h27] at h
                                                          rcases cs with _ | ⟨c2, cs2⟩
                                                          · cases h; exact hcons
                                                          · split at h
                                                            · rename_i cs2x heq
                                                              injection heq with hhd htl
                                                              subst htl
                                                              cases h
                                                              exact le_trans (byte_len_le_cons _ _) hcons
                                                            · cases h; exact hcons
                                                        · rw [if_neg h27] at h
                                                          by_cases h28 : c = '\u0000'
                                                          · rw [if_pos h28] at h
                                                            cases h; exact hcons
                                                          · rw [if_neg h28] at h
                                                            cases h; exact hcons

/-! ## The verified claims -/

/-- C1: end-to-end pipeline correctness on the spec's first scenario.  For
the source program `fn main() { print_int(5 + 3 * (3 + 2)) }`, lexing,
parsing, `gen_module` and running the generated `main` print exactly the
line `20` and nothing else; and the generated bytecode is precisely the
`PUSH_I`-big-endian / `ADD_I` / `MUL_I` / `VIRTUAL 0` sequence that the
precedence-honouring parse tree dictates (parenthesised `3 + 2` innermost,
then the multiplication, then the addition). -/
theorem c1_end_to_end_pipeline :
    compile_and_run "fn main() { print_int(5 + 3 * (3 + 2)) }" 99 = some ["20"]
    ∧ (do
        let toks ← tokenize "fn main() { print_int(5 + 3 * (3 + 2)) }".toList
        let m ← gen_module "fn main() { print_int(5 + 3 * (3 + 2)) }".toList 99
          (parser_parse 99 toks)
        get_main m) =
      some ⟨[0x01, 0, 0, 0, 5, 0x01, 0, 0, 0, 3, 0x01, 0, 0, 0, 3,
             0x01, 0, 0, 0, 2, 0x0c, 0x0e, 0x0c, 0xfe, 0x00], [], .Void⟩ := by
  exact ⟨by decide, by decide⟩

/-- C2 (counterexample): tokenization is NOT total.  On a line comment not
ended by a newline, an unterminated block comment, or an unterminated
string literal, the scanner's skip loop reaches the end of input where
`peek(0)` returns `'\0'` and `next()` returns `None`, so the `loop` makes
no progress and never terminates; the embedding marks exactly these stuck
loops with `none`, and `next_token`/`lex_raw` produce no token stream for
such inputs. -/
theorem c2_counterexample_unterminated_trivia_diverges :
    next_token ('/' :: '/' :: 'a' :: []) = none
    ∧ next_token ('"' :: 'h' :: 'i' :: []) = none
    ∧ next_token ('/' :: '*' :: []) = none
    ∧ skip_line_comment [] = none
    ∧ skip_block_comment [] = none
    ∧ skip_string [] = none
    ∧ lex_raw 4 ('/' :: '/' :: 'a' :: []) = none
    ∧ tokenize "//".toList = none := by
  exact ⟨rfl, rfl, rfl, rfl, rfl, rfl, rfl, rfl⟩

/-- C2 (amended): whenever tokenization terminates (equivalently, the
input does not end inside an unterminated string literal, block comment,
or newline-less line comment), the sum of the byte lengths consumed by the
produced tokens — whitespace and comment runs included — equals the byte
length of the input. -/
theorem c2_token_lengths_cover_input :
    ∀ (fuel : Nat) (cs : List Char) (toks : List (TokenKind × Nat)),
    lex_raw fuel cs = some toks → (toks.map Prod.snd).sum = byte_len cs := by
  intro fuel
  induction fuel with
  | zero => intro cs toks h; simp [lex_raw] at h
  | succ fuel ih =>
    intro cs toks h
    match cs with
    | [] =>
      rw [show lex_raw (fuel + 1) [] = some [] from rfl] at h
      cases h
      simp [byte_len]
    | c :: cs =>
      rw [show lex_raw (fuel + 1) (c :: cs) = (do
        let (kind, rest) ← next_token (c :: cs)
        let rest' ← lex_raw fuel rest
        some ((kind, byte_len (c :: cs) - byte_len rest) :: rest')) from rfl] at h
      cases hn : next_token (c :: cs) with
      | none => rw [hn] at h; simp at h
      | some p =>
        rw [hn] at h
        simp only [Option.bind_eq_bind, Option.some_bind] at h
        cases hl : lex_raw fuel p.2 with
        | none => rw [hl] at h; simp at h
        | some rest2 =>
          rw [hl] at h
          simp only [Option.some_bind] at h
          cases h
          have hle : byte_len p.2 ≤ byte_len (c :: cs) :=
            next_token_le (c :: cs) p.1 p.2 (by rw [hn])
          have hsum := ih p.2 rest2 hl
          simp only [List.map_cons, List.sum_cons, hsum]
          omega

/-- Witness for C2's amended theorem: on `"let x"` the lexer yields the
tokens `let` (3 bytes), whitespace (1 byte), identifier (1 byte), whose
lengths sum to the 5-byte input. -/
theorem c2_token_lengths_cover_input_witness :
    (([(TokenKind.Let, 3), (TokenKind.Whitespace, 1), (TokenKind.Identifier, 1)].map
      Prod.snd).sum : Nat) = byte_len "let x".toList :=
  c2_token_lengths_cover_input 6 "let x".toList
    [(TokenKind.Let, 3), (TokenKind.Whitespace, 1), (TokenKind.Identifier, 1)]
    (by decide)

/-- C3: integer push/return round trip.  For every 32-bit value `n`,
running the six-byte program `[PUSH_I, b3, b2, b1, b0, RET_I]` — with
`b3 … b0` the big-endian bytes of `n` — against any register file (and any
module) returns exactly `[b0, b1, b2, b3]`: `n` in little-endian
two's-complement, the low byte first. -/
theorem c3_push_ret_roundtrip (n : Nat) (h : n < 4294967296)
    (regs : List Nat) (m : VmModule) :
    exec 3 m ⟨[0x01, n / 16777216 % 256, n / 65536 % 256, n / 256 % 256, n % 256, 0xff],
              0, [], regs, []⟩ =
    some ([n % 256, n / 256 % 256, n / 65536 % 256, n / 16777216 % 256], []) := by
  rfl

/-- Witness for C3 at `n = 0x12345678` with a non-empty register file. -/
theorem c3_push_ret_roundtrip_witness :
    305419896 < 4294967296
    ∧ exec 3 (⟨[], []⟩ : VmModule)
        ⟨[0x01, 18, 52, 86, 120, 0xff], 0, [], [9], []⟩ =
      some ([120, 86, 52, 18], []) :=
  ⟨by decide, c3_push_ret_roundtrip 305419896 (by decide) [9] ⟨[], []⟩⟩

/-- C4: loop/break back-patching.  Compiling `loop { break }` with
`gen_block` from a fresh per-function state produces the bytes
`[GOTO, 4, GOTO, 0]`: the loop start `s = 0` as the trailing `GOTO`
operand and the break patched to `k = 4`, the offset of the first byte
after the loop's trailing `GOTO` (which equals the program length); the
pending-break list is empty afterwards; and executing the program
terminates after the single patched `GOTO` (jumping straight to the end,
so the trailing `GOTO` at offset 2 is never executed), printing nothing
and returning no bytes. -/
theorem c4_loop_break_backpatch (input : List Char) (rt : VmType)
    (vm : List (String × Nat × VmType)) (vi : Nat) (mod0 : VmModule)
    (fns : List (String × Nat × Statement)) (m : VmModule) :
    gen_block input 9 ⟨[], vm, vi, [], mod0, fns⟩ (.mk [.Loop (.mk [.Break])]) rt
      = some ⟨[0xc0, 4, 0xc0, 0], vm, vi, [], mod0, fns⟩
    ∧ step (exec 1) m ⟨[0xc0, 4, 0xc0, 0], 0, [], [], []⟩
        = some (.next ⟨[0xc0, 4, 0xc0, 0], 4, [], [], []⟩)
    ∧ ([0xc0, 4, 0xc0, 0] : List Nat).length = 4
    ∧ exec 9 m ⟨[0xc0, 4, 0xc0, 0], 0, [], [], []⟩ = some ([], []) := by
  exact ⟨rfl, rfl, rfl, rfl⟩

/-- C5: cross-function argument passing.  For a function whose parameters
are all of VM type `I32` and a caller stack holding (at least) four bytes
per parameter, `Module::call` pops exactly `4 * k` bytes, leaves the bytes
below untouched, hands the callee a register file holding the arguments in
declaration order (first-pushed argument's bytes at slot 0, in the byte
order the caller's stack held them), and returns exactly what the callee's
`run` returns. -/
theorem c5_call_argument_passing (fuel : Nat) (m : VmModule) (index : Nat)
    (f : VmFunction) (k : Nat) (below args : List Nat) (out : List String)
    (hf : get_fn m index = some f)
    (hp : f.params = List.replicate k .I32)
    (hl : args.length = 4 * k) :
    module_call fuel m index (below ++ args) out
      = match function_run fuel m f args out with
        | some (ret, out') => some (ret, below, out')
        | none => none := by
  cases hr : function_run fuel m f args out with
  | none =>
    simp [module_call, hf, hp, pop_params_replicate k below args hl, hr]
  | some r =>
    simp [module_call, hf, hp, pop_params_replicate k below args hl, hr]

/-- Witness for C5: a one-parameter `I32` function `[LOAD_I 0, RET_I]`
called on the stack `[9, 1, 2, 3, 4]` gets registers `[1, 2, 3, 4]`,
leaves `[9]` on the caller's stack, and returns what `run` returns. -/
theorem c5_call_argument_passing_witness :
    module_call 9 (⟨[], [(7, ⟨[0xfb, 0, 0xff], [.I32], .I32⟩)]⟩ : VmModule) 7
        ([9] ++ [1, 2, 3, 4]) []
      = match function_run 9 (⟨[], [(7, ⟨[0xfb, 0, 0xff], [.I32], .I32⟩)]⟩ : VmModule)
              (⟨[0xfb, 0, 0xff], [.I32], .I32⟩ : VmFunction) [1, 2, 3, 4] [] with
        | some (ret, out') => some (ret, [9], out')
        | none => none :=
  c5_call_argument_passing 9 ⟨[], [(7, ⟨[0xfb, 0, 0xff], [.I32], .I32⟩)]⟩ 7
    ⟨[0xfb, 0, 0xff], [.I32], .I32⟩ 1 [9] [1, 2, 3, 4] []
    (by decide) (by decide) (by decide)

/-- C6: associativity of the expression levels.  With arbitrary
identifier atoms, two operators of the multiplication level parse
right-nested (the rhs recursion goes back into `multiplication`), while
the addition, comparison, and equality levels parse left-nested. -/
theorem c6_associativity (sa sb sc s1 s2 : Span) :
    (∀ o1 o2 : TokenKind, o1 = .Star ∨ o1 = .Slash → o2 = .Star ∨ o2 = .Slash →
      parse_expression 16
          [⟨.Identifier, sa⟩, ⟨o1, s1⟩, ⟨.Identifier, sb⟩, ⟨o2, s2⟩, ⟨.Identifier, sc⟩]
        = (.Binary (.Ident sa) (op_from o1)
            (.Binary (.Ident sb) (op_from o2) (.Ident sc) Span.dummy) Span.dummy, []))
    ∧ (∀ o1 o2 : TokenKind, o1 = .Plus ∨ o1 = .Minus → o2 = .Plus ∨ o2 = .Minus →
      parse_expression 16
          [⟨.Identifier, sa⟩, ⟨o1, s1⟩, ⟨.Identifier, sb⟩, ⟨o2, s2⟩, ⟨.Identifier, sc⟩]
        = (.Binary (.Binary (.Ident sa) (op_from o1) (.Ident sb) Span.dummy)
            (op_from o2) (.Ident sc) Span.dummy, []))
    ∧ (∀ o1 o2 : TokenKind,
      o1 = .Lt ∨ o1 = .Gt ∨ o1 = .LtEqual ∨ o1 = .GtEqual →
      o2 = .Lt ∨ o2 = .Gt ∨ o2 = .LtEqual ∨ o2 = .GtEqual →
      parse_expression 16
          [⟨.Identifier, sa⟩, ⟨o1, s1⟩, ⟨.Identifier, sb⟩, ⟨o2, s2⟩, ⟨.Identifier, sc⟩]
        = (.Binary (.Binary (.Ident sa) (op_from o1) (.Ident sb) Span.dummy)
            (op_from o2) (.Ident sc) Span.dummy, []))
    ∧ (∀ o1 o2 : TokenKind, o1 = .EqEqual ∨ o1 = .NotEqual → o2 = .EqEqual ∨ o2 = .NotEqual →
      parse_expression 16
          [⟨.Identifier, sa⟩, ⟨o1, s1⟩, ⟨.Identifier, sb⟩, ⟨o2, s2⟩, ⟨.Identifier, sc⟩]
        = (.Binary (.Binary (.Ident sa) (op_from o1) (.Ident sb) Span.dummy)
            (op_from o2) (.Ident sc) Span.dummy, [])) := by
  refine ⟨?_, ?_, ?_, ?_⟩
  · rintro o1 o2 (rfl | rfl) (rfl | rfl) <;> rfl
  · rintro o1 o2 (rfl | rfl) (rfl | rfl) <;> rfl
  · rintro o1 o2 (rfl | rfl | rfl | rfl) (rfl | rfl | rfl | rfl) <;> rfl
  · rintro o1 o2 (rfl | rfl) (rfl | rfl) <;> rfl

/-- Witness for C6 at concrete spans: `a / b / c` right-nested, `a - b - c`,
`a < b > c` and `a == b != c` left-nested. -/
theorem c6_associativity_witness :
    parse_expression 16
        [⟨.Identifier, Span.new 0 1⟩, ⟨.Slash, Span.new 2 3⟩, ⟨.Identifier, Span.new 4 5⟩,
         ⟨.Slash, Span.new 6 7⟩, ⟨.Identifier, Span.new 8 9⟩]
      = (.Binary (.Ident (Span.new 0 1)) .Slash
          (.Binary (.Ident (Span.new 4 5)) .Slash (.Ident (Span.new 8 9)) Span.dummy)
          Span.dummy, [])
    ∧ parse_expression 16
        [⟨.Identifier, Span.new 0 1⟩, ⟨.Minus, Span.new 2 3⟩, ⟨.Identifier, Span.new 4 5⟩,
         ⟨.Minus, Span.new 6 7⟩, ⟨.Identifier, Span.new 8 9⟩]
      = (.Binary (.Binary (.Ident (Span.new 0 1)) .Minus (.Ident (Span.new 4 5)) Span.dummy)
          .Minus (.Ident (Span.new 8 9)) Span.dummy, [])
    ∧ parse_expression 16
        [⟨.Identifier, Span.new 0 1⟩, ⟨.Lt, Span.new 2 3⟩, ⟨.Identifier, Span.new 4 5⟩,
         ⟨.Gt, Span.new 6 7⟩, ⟨.Identifier, Span.new 8 9⟩]
      = (.Binary (.Binary (.Ident (Span.new 0 1)) .Lt (.Ident (Span.new 4 5)) Span.dummy)
          .Gt (.Ident (Span.new 8 9)) Span.dummy, [])
    ∧ parse_expression 16
        [⟨.Identifier, Span.new 0 1⟩, ⟨.EqEqual, Span.new 2 3⟩, ⟨.Identifier, Span.new 4 5⟩,
         ⟨.NotEqual, Span.new 6 7⟩, ⟨.Identifier, Span.new 8 9⟩]
      = (.Binary (.Binary (.Ident (Span.new 0 1)) .Eq (.Ident (Span.new 4 5)) Span.dummy)
          .NotEq (.Ident (Span.new 8 9)) Span.dummy, []) :=
  ⟨(c6_associativity _ _ _ _ _).1 .Slash .Slash (Or.inr rfl) (Or.inr rfl),
   (c6_associativity _ _ _ _ _).2.1 .Minus .Minus (Or.inr rfl) (Or.inr rfl),
   (c6_associativity _ _ _ _ _).2.2.1 .Lt .Gt (Or.inl rfl) (Or.inr (Or.inl rfl)),
   (c6_associativity _ _ _ _ _).2.2.2 .EqEqual .NotEqual (Or.inl rfl) (Or.inr rfl)⟩

/-- C7: prefix unary parsing actually rejects `-`/`!` and accepts `*`/`/`.
`Parser::unary` tests for `Star`/`Slash` before `primary`, so `-e` falls
into `primary`, which consumes the `-`, reports "Expected a value", and
yields `Dummy` without consuming `e` (likewise `!e`); while `*e` and `/e`
parse as `Unary(Star, e)`/`Unary(Slash, e)`.  This refutes the claim that
`-e` parses as `Unary(Minus, e)`, `!e` as `Unary(Not, e)`, and that the
accepted prefix operators are exactly `-` and `!`. -/
theorem c7_unary_uses_star_slash (sm s5 : Span) :
    parse_expression 16 [⟨.Minus, sm⟩, ⟨.Literal .Int, s5⟩]
      = (.Dummy, [⟨.Literal .Int, s5⟩])
    ∧ parse_expression 16 [⟨.Not, sm⟩, ⟨.Literal .Int, s5⟩]
      = (.Dummy, [⟨.Literal .Int, s5⟩])
    ∧ parse_expression 16 [⟨.Star, sm⟩, ⟨.Literal .Int, s5⟩]
      = (.Unary .Star (.Literal s5 .Int) Span.dummy, [])
    ∧ parse_expression 16 [⟨.Slash, sm⟩, ⟨.Literal .Int, s5⟩]
      = (.Unary .Slash (.Literal s5 .Int) Span.dummy, []) := by
  exact ⟨rfl, rfl, rfl, rfl⟩

/-- C8 (counterexample): `CMP_I` does not follow the operand convention of
the other binary opcodes.  With `lhs = 1` pushed first and `rhs = 0` on
top (so `lhs > rhs`), the claim predicts the pushed byte `0x01`; the code
compares the first-popped value against the second-popped one and pushes
`0x02`. -/
theorem c8_counterexample_cmp_convention :
    step (exec 1) (⟨[], []⟩ : VmModule)
        ⟨[0x20], 0, le_bytes 1 ++ le_bytes 0, [], []⟩
      = some (.next ⟨[0x20], 1, [0x02], [], []⟩) ∧ (0x02 : Nat) ≠ 0x01 := by
  exact ⟨by decide, by decide⟩

/-- C8 (amended): `CMP_I` pops two `i32` values and pushes a single byte,
but with the convention reversed relative to `GT_I` and friends: writing
`lhs` for the second-popped (deeper) value and `rhs` for the first-popped
(top) value, it pushes `0x00` when `lhs = rhs`, `0x01` when `lhs < rhs`,
and `0x02` when `lhs > rhs` — i.e. it reports the ordering of the
first-popped value against the second-popped one. -/
theorem c8_cmp_i_reversed_convention
    (run : VmModule → VmState → Option (List Nat × List String))
    (m : VmModule) (lhs rhs : Int) (st regs : List Nat) (out : List String)
    (ha : -2147483648 ≤ lhs) (hb : lhs < 2147483648)
    (hc : -2147483648 ≤ rhs) (hd : rhs < 2147483648) :
    step run m ⟨[0x20], 0, st ++ le_bytes lhs ++ le_bytes rhs, regs, out⟩
      = some (.next ⟨[0x20], 1,
          st ++ [if lhs = rhs then 0x00 else if lhs < rhs then 0x01 else 0x02],
          regs, out⟩) := by
  have e1 : pop_i32 (st ++ (le_bytes lhs ++ le_bytes rhs))
      = some (rhs, st ++ le_bytes lhs) := by
    rw [← List.append_assoc]; exact pop_i32_le_bytes _ _ hc hd
  have e2 : pop_i32 (st ++ le_bytes lhs) = some (lhs, st) := pop_i32_le_bytes _ _ ha hb
  have hb2 : (if rhs = lhs then (0x00 : Nat) else if rhs > lhs then 0x01 else 0x02)
      = (if lhs = rhs then 0x00 else if lhs < rhs then 0x01 else 0x02) := by
    by_cases h : lhs = rhs
    · simp [h]
    · by_cases h2 : lhs < rhs
      · simp [h, h2, Ne.symm h, gt_iff_lt]
      · simp [h, h2, Ne.symm h, gt_iff_lt]
  calc step run m ⟨[0x20], 0, st ++ le_bytes lhs ++ le_bytes rhs, regs, out⟩
      = (do
          let (a, s1) ← pop_i32 (st ++ le_bytes lhs ++ le_bytes rhs)
          let (b, s2) ← pop_i32 s1
          some (.next ⟨[0x20], 1,
            s2 ++ [if a = b then 0x00 else if a > b then 0x01 else 0x02], regs, out⟩)) := rfl
    _ = _ := by simp [e1, e2, hb2]

/-- Witness for C8's amended theorem at `lhs = -5`, `rhs = 3` (so
`lhs < rhs` and the pushed byte is `0x01`). -/
theorem c8_cmp_i_reversed_convention_witness :
    step (exec 1) (⟨[], []⟩ : VmModule)
        ⟨[0x20], 0, [7] ++ le_bytes (-5) ++ le_bytes 3, [8], ["x"]⟩
      = some (.next ⟨[0x20], 1, [7, 0x01], [8], ["x"]⟩) :=
  c8_cmp_i_reversed_convention (exec 1) ⟨[], []⟩ (-5) 3 [7] [8] ["x"]
    (by decide) (by decide) (by decide) (by decide)

/-- C9: store/load round trip.  With a register file of length at least
`slot + 4` and four bytes `x0 x1 x2 x3` on top of the stack (lowest stack
address first), executing `STO_I slot` pops them into
`regs[slot..slot+4]` (the value's lowest-addressed stack byte landing at
`regs[slot]`), then `LOAD_I slot` pushes them back, restoring the stack
exactly; the register file keeps its length and every register outside
`slot..slot+4` is unchanged. -/
theorem c9_sto_load_roundtrip
    (run : VmModule → VmState → Option (List Nat × List String))
    (m : VmModule) (slot : Nat) (st : List Nat) (x0 x1 x2 x3 : Nat)
    (regs : List Nat) (out : List String) (h : slot + 4 ≤ regs.length) :
    step run m ⟨[0xfc, slot, 0xfb, slot], 0, st ++ [x0, x1, x2, x3], regs, out⟩
      = some (.next ⟨[0xfc, slot, 0xfb, slot], 2, st,
          write_bytes regs slot [x0, x1, x2, x3], out⟩)
    ∧ step run m ⟨[0xfc, slot, 0xfb, slot], 2, st,
          write_bytes regs slot [x0, x1, x2, x3], out⟩
      = some (.next ⟨[0xfc, slot, 0xfb, slot], 4, st ++ [x0, x1, x2, x3],
          write_bytes regs slot [x0, x1, x2, x3], out⟩)
    ∧ (write_bytes regs slot [x0, x1, x2, x3])[slot]? = some x0
    ∧ (write_bytes regs slot [x0, x1, x2, x3])[slot + 1]? = some x1
    ∧ (write_bytes regs slot [x0, x1, x2, x3])[slot + 2]? = some x2
    ∧ (write_bytes regs slot [x0, x1, x2, x3])[slot + 3]? = some x3
    ∧ (write_bytes regs slot [x0, x1, x2, x3]).length = regs.length
    ∧ ∀ i, i < slot ∨ slot + 4 ≤ i →
        (write_bytes regs slot [x0, x1, x2, x3])[i]? = regs[i]? := by
  obtain ⟨g0, g1, g2, g3, glen, gout⟩ := write4_sets regs slot x0 x1 x2 x3 h
  refine ⟨?_, ?_, g0, g1, g2, g3, glen, gout⟩
  · have hp : pop_32 (st ++ [x0, x1, x2, x3]) = some ([x0, x1, x2, x3], st) :=
      pop_32_append st x0 x1 x2 x3
    calc step run m ⟨[0xfc, slot, 0xfb, slot], 0, st ++ [x0, x1, x2, x3], regs, out⟩
        = (do
            let (val, st') ← pop_32 (st ++ [x0, x1, x2, x3])
            some (.next ⟨[0xfc, slot, 0xfb, slot], 2, st',
              if regs.length ≤ slot + 3 then regs ++ val
              else write_bytes regs slot val, out⟩)) := rfl
      _ = _ := by rw [hp]; simp [if_neg (by omega : ¬ regs.length ≤ slot + 3)]
  · calc step run m ⟨[0xfc, slot, 0xfb, slot], 2, st,
          write_bytes regs slot [x0, x1, x2, x3], out⟩
        = (do
            let a ← (write_bytes regs slot [x0, x1, x2, x3])[slot]?
            let b ← (write_bytes regs slot [x0, x1, x2, x3])[slot + 1]?
            let c ← (write_bytes regs slot [x0, x1, x2, x3])[slot + 2]?
            let d ← (write_bytes regs slot [x0, x1, x2, x3])[slot + 3]?
            some (.next ⟨[0xfc, slot, 0xfb, slot], 4, st ++ [a, b, c, d],
              write_bytes regs slot [x0, x1, x2, x3], out⟩)) := rfl
      _ = _ := by rw [g0, g1, g2, g3]; rfl

/-- Witness for C9 at `slot = 0`, stack `[7, 1, 2, 3, 4]`, registers
`[9, 9, 9, 9, 9]`. -/
theorem c9_sto_load_roundtrip_witness :
    step (exec 1) (⟨[], []⟩ : VmModule)
        ⟨[0xfc, 0, 0xfb, 0], 0, [7] ++ [1, 2, 3, 4], [9, 9, 9, 9, 9], []⟩
      = some (.next ⟨[0xfc, 0, 0xfb, 0], 2, [7],
          write_bytes [9, 9, 9, 9, 9] 0 [1, 2, 3, 4], []⟩)
    ∧ step (exec 1) (⟨[], []⟩ : VmModule)
        ⟨[0xfc, 0, 0xfb, 0], 2, [7], write_bytes [9, 9, 9, 9, 9] 0 [1, 2, 3, 4], []⟩
      = some (.next ⟨[0xfc, 0, 0xfb, 0], 4, [7] ++ [1, 2, 3, 4],
          write_bytes [9, 9, 9, 9, 9] 0 [1, 2, 3, 4], []⟩)
    ∧ (write_bytes [9, 9, 9, 9, 9] 0 [1, 2, 3, 4])[0]? = some 1
    ∧ (write_bytes [9, 9, 9, 9, 9] 0 [1, 2, 3, 4])[0 + 1]? = some 2
    ∧ (write_bytes [9, 9, 9, 9, 9] 0 [1, 2, 3, 4])[0 + 2]? = some 3
    ∧ (write_bytes [9, 9, 9, 9, 9] 0 [1, 2, 3, 4])[0 + 3]? = some 4
    ∧ (write_bytes [9, 9, 9, 9, 9] 0 [1, 2, 3, 4]).length = ([9, 9, 9, 9, 9] : List Nat).length
    ∧ ∀ i, i < 0 ∨ 0 + 4 ≤ i →
        (write_bytes [9, 9, 9, 9, 9] 0 [1, 2, 3, 4])[i]? = ([9, 9, 9, 9, 9] : List Nat)[i]? :=
  c9_sto_load_roundtrip (exec 1) ⟨[], []⟩ 0 [7] 1 2 3 4 [9, 9, 9, 9, 9] []
    (by decide)

/-- C10: unknown `VIRTUAL` subcodes are benign.  For every subcode byte
`v > 0x03`, executing `VIRTUAL v` consumes exactly the opcode and its one
operand byte (the instruction pointer moves from 0 past both bytes to 2),
leaves the stack, the register file, and the output untouched, and does
not fault — in contrast to an unknown opcode byte such as `0x02`, which is
fatal. -/
theorem c10_unknown_virtual_benign
    (run : VmModule → VmState → Option (List Nat × List String))
    (m : VmModule) (v : Nat) (st regs : List Nat) (out : List String)
    (h3 : 3 < v) (h256 : v < 256) :
    step run m ⟨[0xfe, v], 0, st, regs, out⟩
      = some (.next ⟨[0xfe, v], 2, st, regs, out⟩)
    ∧ step run m ⟨[0x02], 0, st, regs, out⟩ = none := by
  obtain ⟨w, rfl⟩ : ∃ w, v = w + 4 := ⟨v - 4, by omega⟩
  exact ⟨rfl, rfl⟩

/-- Witness for C10 at subcode `9` with a non-trivial state. -/
theorem c10_unknown_virtual_benign_witness :
    step (exec 1) (⟨[], []⟩ : VmModule) ⟨[0xfe, 9], 0, [1, 2], [3], ["x"]⟩
      = some (.next ⟨[0xfe, 9], 2, [1, 2], [3], ["x"]⟩)
    ∧ step (exec 1) (⟨[], []⟩ : VmModule) ⟨[0x02], 0, [1, 2], [3], ["x"]⟩ = none :=
  c10_unknown_virtual_benign (exec 1) ⟨[], []⟩ 9 [1, 2] [3] ["x"]
    (by decide) (by decide)
